import Mathlib

/-!
# WHATSGO: line dispatch and media pipeline

A shallow embedding of `src/main.go` (the multi-line WhatsApp gateway) and the
properties of its dispatch router and media pipeline.

Conventions of the embedding.

* Go strings that reach the handlers are produced by `encoding/json`, which
  only yields valid UTF-8; they are Lean `String`s.  `len(s)` is the byte
  length `String.utf8ByteSize`; `for _, c := range s` visits `s.data`.
  The byte positions at which the source slices a string are always right
  before or right after an ASCII marker, so a slice is the same string
  whether the position is counted in bytes or in characters; the model counts
  positions in characters.
* `time.Time` is an integer count of nanoseconds relative to the zero
  `time.Time`; `Before` is `<`.
* The registry `lines map[string]*Line` is the list of its lines in the order
  in which one `range` statement visits them.  Every insertion in the source
  is `lines[id] = line` with `line.ID = id`, so the key of a line is its `ID`
  and a `*Line` is identified by that `ID`.
* The protocol client, the image codecs and Base64 decoding are external; they
  are the fields of `Env`.  The calls made on them are recorded as `Effect`s.
-/

namespace WhatsGo

/-! ## Data model -/

abbrev Bytes := List Nat

abbrev Time := Int

/-- The zero value of `time.Time`. -/
def zeroTime : Time := 0

/-- `LineConfig` of the source. -/
structure LineConfig where
  AllowCalls : Bool
  RespondToGroups : Bool
  AutoMarkRead : Bool
  AlwaysOnline : Bool
  AutoReplyMsg : String
deriving DecidableEq, Repr

/-- The part of a `*whatsmeow.Client` the gateway looks at: the identity of the
session object and `Store.ID` (`none` for `nil`, no stored credential). -/
structure Client where
  handle : Nat
  StoreID : Option String
deriving DecidableEq, Repr

/-- `Line` of the source. `Client` is `none` for a `nil` pointer. -/
structure Line where
  ID : String
  Name : String
  Status : String
  QRCode : String
  Client : Option Client
  WebhookURL : String
  Available : Bool
  LastUsed : Time
  Config : LineConfig
  Active : Bool
deriving DecidableEq, Repr

/-- `MessageRequest` of the source. -/
structure MessageRequest where
  From : String
  To : String
  Message : String
  MediaType : String
  MediaData : String
  FileName : String
  Caption : String
  MimeType : String
deriving DecidableEq, Repr

/-- `types.JID`, reduced to the two fields `types.NewJID` fills. -/
structure JID where
  User : String
  Server : String
deriving DecidableEq, Repr

/-- `types.DefaultUserServer` of the protocol library. -/
def DefaultUserServer : String := "s.whatsapp.net"

/-- `types.NewJID`. -/
def NewJID (user server : String) : JID := ⟨user, server⟩

/-- `whatsmeow.MediaType`: the upload categories. -/
inductive WaMediaType where
  | MediaImage
  | MediaAudio
  | MediaVideo
  | MediaDocument
deriving DecidableEq, Repr

/-- `whatsmeow.UploadResponse`. -/
structure Uploaded where
  URL : String
  DirectPath : String
  MediaKey : Bytes
  FileEncSHA256 : Bytes
  FileSHA256 : Bytes
  FileLength : Nat
deriving DecidableEq, Repr

/-- `waProto.Message`, with the variants the gateway builds. -/
inductive Message where
  | Conversation (text : String)
  | ImageMessage (caption : String) (up : Uploaded) (mimetype : String)
  | AudioMessage (up : Uploaded) (mimetype : String) (ptt : Bool)
  | VideoMessage (caption : String) (up : Uploaded) (mimetype : String)
  | DocumentMessage (up : Uploaded) (mimetype : String) (fileName : String)
deriving DecidableEq, Repr

/-- A decoded raster (`image.Image`): its bounds and its `At`. -/
structure Image where
  width : Nat
  height : Nat
  pixel : Nat → Nat → Nat

/-- The external collaborators of the send path. -/
structure Env where
  /-- `base64.StdEncoding.DecodeString`; `none` is a decode error. -/
  base64Decode : String → Option Bytes
  /-- `image.Decode`; `none` is a decode error. -/
  imageDecode : Bytes → Option Image
  /-- `jpeg.Encode` at a quality; `none` is an encode error. -/
  jpegEncode : Image → Nat → Option Bytes
  /-- `client.Upload`; `none` is an upload error. -/
  upload : Option Client → Bytes → WaMediaType → Option Uploaded
  /-- `client.SendMessage`; `false` is a send error. -/
  sendMessage : Option Client → JID → Message → Bool

/-- The calls a handler makes on its collaborators, in order. -/
inductive Effect where
  | jpegEncode (img : Image) (quality : Nat)
  | upload (client : Option Client) (data : Bytes) (kind : WaMediaType)
  | send (client : Option Client) (recipient : JID) (msg : Message)
  | logMessage (lineID direction fromNumber toNumber messageType messageText : String)
      (isGroup : Bool)

/-- The stage at which `processImageForWhatsApp` failed. -/
inductive ImageError where
  | decode
  | encode
  | recompress
deriving DecidableEq, Repr

/-- The errors `createMediaMessage` returns. -/
inductive MediaError where
  | base64 (dataLength : Nat)
  | tooLarge (size maxSize : Nat)
  | processImage (cause : ImageError)
  | unsupported (mediaType : String)
  | uploadFailed (size : Nat)
deriving DecidableEq, Repr

/-- What a handler writes back (`panicked`: the handler died on a nil
dereference before writing a reply). -/
inductive Reply where
  | error (code : Nat) (msg : String)
  | mediaError (code : Nat) (err : MediaError)
  | sendError (code : Nat)
  | sent (lineID : String)
  | panicked
deriving DecidableEq, Repr

/-- The HTTP status of a reply. -/
def Reply.code : Reply → Option Nat
  | .error c _ => some c
  | .mediaError c _ => some c
  | .sendError c => some c
  | .sent _ => some 200
  | .panicked => none

def StatusBadRequest : Nat := 400
def StatusNotFound : Nat := 404
def StatusInternalServerError : Nat := 500
def StatusServiceUnavailable : Nat := 503

/-! ## Utilities -/

/-- `s[:n]`. -/
def sliceTo (s : String) (n : Nat) : String := ⟨s.data.take n⟩

/-- `s[n:]`. -/
def sliceFrom (s : String) (n : Nat) : String := ⟨s.data.drop n⟩

/-- The loop `for i := 0; i < len(s); i++ { if s[i] == c { idx = i; break } }`;
`none` stands for the initial `-1`. -/
def indexOfChar (c : Char) : List Char → Option Nat
  | [] => none
  | x :: xs => if x = c then some 0 else (indexOfChar c xs).map (· + 1)

/-- The digit-collecting loop of `parseJID` (lines 993-998). -/
def cleanPhone (phone : String) : String :=
  phone.data.foldl (fun acc c => if '0' ≤ c ∧ c ≤ '9' then acc ++ String.singleton c else acc) ""

/-- `parseJID` (lines 991-1005). -/
def parseJID (phone : String) : Except String JID :=
  if (cleanPhone phone).utf8ByteSize < 10 then
    .error "número inválido"
  else
    .ok (NewJID (cleanPhone phone) DefaultUserServer)

/-! ## Media pipeline -/

/-- `maxDimension` of `processImageForWhatsApp`. -/
def maxDimension : Nat := 1280

/-- The new dimensions computed at lines 1029-1036.  Decoded rasters have sides
below `2^31`, so the products stay far inside a 64-bit `int`. -/
def newDimensions (width height : Nat) : Nat × Nat :=
  if width > height then
    (maxDimension, (height * maxDimension) / width)
  else
    ((width * maxDimension) / height, maxDimension)

/-- The nearest-neighbour copy of lines 1041-1048 into a fresh
`newWidth × newHeight` raster (pixels outside the bounds read as zero). -/
def resample (img : Image) (newWidth newHeight : Nat) : Image where
  width := newWidth
  height := newHeight
  pixel := fun x y =>
    if x < newWidth ∧ y < newHeight then
      img.pixel ((x * img.width) / newWidth) ((y * img.height) / newHeight)
    else 0

/-- The raster that gets encoded: `finalImg` of lines 1015-1050. -/
def finalImage (img : Image) : Image :=
  let width := img.width
  let height := img.height
  let needsResize := width > maxDimension || height > maxDimension
  if needsResize then
    resample img (newDimensions width height).1 (newDimensions width height).2
  else img

/-- The quality of the first encode, lines 1054-1061. -/
def firstQuality (imageBytes : Bytes) : Nat :=
  if imageBytes.length > 500000 then 60
  else if imageBytes.length > 200000 then 70
  else 75

/-- Result of `processImageForWhatsApp`: the encoder calls made and the
returned `(bytes, mime)` or error. -/
structure ImageResult where
  effects : List Effect
  result : Except ImageError (Bytes × String)

/-- `processImageForWhatsApp` (lines 1008-1087). -/
def processImageForWhatsApp (env : Env) (imageBytes : Bytes) (_mimeType : String) :
    ImageResult :=
  match env.imageDecode imageBytes with
  | none => ⟨[], .error .decode⟩
  | some img =>
    let finalImg := finalImage img
    let quality := firstQuality imageBytes
    match env.jpegEncode finalImg quality with
    | none => ⟨[.jpegEncode finalImg quality], .error .encode⟩
    | some processedBytes =>
      if processedBytes.length > 300000 then
        match env.jpegEncode finalImg 50 with
        | none =>
          ⟨[.jpegEncode finalImg quality, .jpegEncode finalImg 50], .error .recompress⟩
        | some recompressed =>
          ⟨[.jpegEncode finalImg quality, .jpegEncode finalImg 50],
            .ok (recompressed, "image/jpeg")⟩
      else
        ⟨[.jpegEncode finalImg quality], .ok (processedBytes, "image/jpeg")⟩

/-- The MIME type taken from a data-URL head `data:<mime>;...` (lines 1109-1126):
`pfx` is the text before the first comma, `mimeType` the type known so far. -/
def extractMime (pfx mimeType : String) : String :=
  if mimeType == "" then
    if pfx.utf8ByteSize > 5 then
      let parts := sliceFrom pfx 5
      match indexOfChar ';' parts.data with
      | some semicolonIndex =>
        if semicolonIndex > 0 then sliceTo parts semicolonIndex else mimeType
      | none => mimeType
    else mimeType
  else mimeType

/-- Data-URL detection of lines 1091-1132: returns `(mediaData, mimeType)` as they
stand after the block. -/
def stripDataURL (req : MessageRequest) : String × String :=
  let mediaData := req.MediaData
  let mimeType := req.MimeType
  if mediaData.utf8ByteSize > 5 && sliceTo mediaData 5 == "data:" then
    match indexOfChar ',' mediaData.data with
    | some commaIndex =>
      if commaIndex > 0 then
        (sliceFrom mediaData (commaIndex + 1), extractMime (sliceTo mediaData commaIndex) mimeType)
      else (mediaData, mimeType)
    | none => (mediaData, mimeType)
  else (mediaData, mimeType)

/-- The category default of lines 1140-1154. -/
def defaultMime (mediaType mimeType : String) : String :=
  if mimeType == "" then
    if mediaType == "image" then "image/jpeg"
    else if mediaType == "audio" then "audio/ogg; codecs=opus"
    else if mediaType == "voice" then "audio/ogg; codecs=opus"
    else if mediaType == "video" then "video/mp4"
    else if mediaType == "document" then "application/pdf"
    else mimeType
  else mimeType

/-- The MIME type in force when the payload is decoded (lines 1091-1154). -/
def resolvedMime (req : MessageRequest) : String :=
  let mimeType := (stripDataURL req).2
  let mimeType := if mimeType == "" && req.MimeType != "" then req.MimeType else mimeType
  defaultMime req.MediaType mimeType

/-- The ceiling `maxSize` of lines 1165-1175. -/
def maxSize (mediaType : String) : Nat :=
  if mediaType == "image" then 5 * 1024 * 1024
  else if mediaType == "audio" || mediaType == "voice" then 16 * 1024 * 1024
  else if mediaType == "video" then 16 * 1024 * 1024
  else if mediaType == "document" then 100 * 1024 * 1024
  else 0

/-- The upload category of lines 1190-1202; `none` is the `default` branch. -/
def whatsappMediaType (mediaType : String) : Option WaMediaType :=
  if mediaType == "image" then some .MediaImage
  else if mediaType == "audio" || mediaType == "voice" then some .MediaAudio
  else if mediaType == "video" then some .MediaVideo
  else if mediaType == "document" then some .MediaDocument
  else none

/-- The envelope of lines 1212-1289. -/
def buildMessage (req : MessageRequest) (uploaded : Uploaded) (mimeType : String) :
    Except MediaError Message :=
  if req.MediaType == "image" then .ok (.ImageMessage req.Caption uploaded mimeType)
  else if req.MediaType == "audio" then .ok (.AudioMessage uploaded mimeType false)
  else if req.MediaType == "voice" then .ok (.AudioMessage uploaded mimeType true)
  else if req.MediaType == "video" then .ok (.VideoMessage req.Caption uploaded mimeType)
  else if req.MediaType == "document" then .ok (.DocumentMessage uploaded mimeType req.FileName)
  else .error (.unsupported req.MediaType)

/-- Result of `createMediaMessage`: the collaborator calls made and the
envelope or error. -/
structure MediaResult where
  effects : List Effect
  result : Except MediaError Message

/-- The tail of `createMediaMessage` from the upload on (lines 1189-1291). -/
def uploadAndBuild (env : Env) (client : Option Client) (req : MessageRequest)
    (before : List Effect) (mediaBytes : Bytes) (mimeType : String) : MediaResult :=
  match whatsappMediaType req.MediaType with
  | none => ⟨before, .error (.unsupported req.MediaType)⟩
  | some kind =>
    match env.upload client mediaBytes kind with
    | none => ⟨before ++ [.upload client mediaBytes kind], .error (.uploadFailed mediaBytes.length)⟩
    | some uploaded =>
      ⟨before ++ [.upload client mediaBytes kind], buildMessage req uploaded mimeType⟩

/-- `createMediaMessage` (lines 1089-1292). -/
def createMediaMessage (env : Env) (client : Option Client) (req : MessageRequest) :
    MediaResult :=
  let mediaData := (stripDataURL req).1
  let mimeType := resolvedMime req
  match env.base64Decode mediaData with
  | none => ⟨[], .error (.base64 mediaData.utf8ByteSize)⟩
  | some mediaBytes =>
    if mediaBytes.length > maxSize req.MediaType then
      ⟨[], .error (.tooLarge mediaBytes.length (maxSize req.MediaType))⟩
    else if req.MediaType == "image" then
      let processed := processImageForWhatsApp env mediaBytes mimeType
      match processed.result with
      | .error e => ⟨processed.effects, .error (.processImage e)⟩
      | .ok (imageBytes, imageMime) =>
        uploadAndBuild env client req processed.effects imageBytes imageMime
    else
      uploadAndBuild env client req [] mediaBytes mimeType

/-! ## Dispatch -/

/-- The selection condition of line 932. -/
def isCandidate (line : Line) : Bool :=
  line.Available && line.Status == "connected" && line.Active

/-- One iteration of the selection loop (lines 931-938) on the pair
`(selectedLine, oldestTime)`. -/
def selectStep (st : Option Line × Time) (line : Line) : Option Line × Time :=
  if isCandidate line then
    if st.1.isNone || line.LastUsed < st.2 then (some line, line.LastUsed) else st
  else st

/-- The selection loop of `sendMessageAuto` (lines 927-938) over the lines in
iteration order; the first component is `selectedLine`. -/
def selectLine (lines : List Line) : Option Line × Time :=
  lines.foldl selectStep (none, zeroTime)

/-- The assignment `line.LastUsed = now` through the pointer of the line `id`. -/
def setLastUsed (lines : List Line) (id : String) (now : Time) : List Line :=
  lines.map fun l => if l.ID = id then { l with LastUsed := now } else l

/-- `lines[id]`. -/
def lookupLine (lines : List Line) (id : String) : Option Line :=
  lines.find? fun l => l.ID == id

/-- Outcome of a handler: the registry afterwards, the collaborator calls made
and the reply. -/
structure HandlerResult where
  lines : List Line
  effects : List Effect
  reply : Reply

/-- The common tail of both send handlers (lines 887-902 and 970-986): send,
stamp `LastUsed`, log, reply. -/
def deliver (env : Env) (now : Time) (lines : List Line) (line : Line) (req : MessageRequest)
    (recipient : JID) (before : List Effect) (msg : Message) : HandlerResult :=
  let effects := before ++ [.send line.Client recipient msg]
  if env.sendMessage line.Client recipient msg then
    let lines := setLastUsed lines line.ID now
    match line.Client.bind (·.StoreID) with
    | none => ⟨lines, effects, .panicked⟩
    | some sender =>
      ⟨lines,
        effects ++ [.logMessage line.ID "sent" sender req.To req.MediaType req.Message false],
        .sent line.ID⟩
  else
    ⟨lines, effects, .sendError StatusInternalServerError⟩

/-- `sendMessage` (lines 833-903), after the request body has been decoded. -/
def sendMessage (env : Env) (now : Time) (lines : List Line) (req : MessageRequest) :
    HandlerResult :=
  if req.From == "" || req.To == "" then
    ⟨lines, [], .error StatusBadRequest "From y To son requeridos"⟩
  else
    match lookupLine lines req.From with
    | none => ⟨lines, [], .error StatusNotFound "Línea no encontrada"⟩
    | some line =>
      if !line.Available || line.Status != "connected" then
        ⟨lines, [], .error StatusServiceUnavailable "Línea no disponible"⟩
      else
        match parseJID req.To with
        | .error _ => ⟨lines, [], .error StatusBadRequest "Número de destino inválido"⟩
        | .ok recipient =>
          if req.MediaType != "" && req.MediaType != "text" then
            let built := createMediaMessage env line.Client req
            match built.result with
            | .error e => ⟨lines, built.effects, .mediaError StatusBadRequest e⟩
            | .ok msg => deliver env now lines line req recipient built.effects msg
          else if req.Message == "" then
            ⟨lines, [], .error StatusBadRequest "Message es requerido para mensajes de texto"⟩
          else
            deliver env now lines line req recipient [] (.Conversation req.Message)

/-- `sendMessageAuto` (lines 906-987), after the request body has been decoded. -/
def sendMessageAuto (env : Env) (now : Time) (lines : List Line) (req : MessageRequest) :
    HandlerResult :=
  if req.To == "" then
    ⟨lines, [], .error StatusBadRequest "To es requerido"⟩
  else if req.Message == "" && req.MediaType == "" then
    ⟨lines, [], .error StatusBadRequest "Message o MediaType son requeridos"⟩
  else
    match (selectLine lines).1 with
    | none => ⟨lines, [], .error StatusServiceUnavailable "No hay líneas disponibles"⟩
    | some selectedLine =>
      match parseJID req.To with
      | .error _ => ⟨lines, [], .error StatusBadRequest "Número de destino inválido"⟩
      | .ok recipient =>
        if req.MediaType != "" && req.MediaType != "text" then
          let built := createMediaMessage env selectedLine.Client req
          match built.result with
          | .error e => ⟨lines, built.effects, .mediaError StatusInternalServerError e⟩
          | .ok msg => deliver env now lines selectedLine req recipient built.effects msg
        else
          deliver env now lines selectedLine req recipient [] (.Conversation req.Message)

/-- The loop invariant: `oldestTime` is the `LastUsed` of `selectedLine`, which is
a candidate already visited and not used later than any visited candidate;
and nothing is selected only while no candidate has been visited. -/
def SelectInv (ls : List Line) (st : Option Line × Time) : Prop :=
  (st.1 = none → ∀ l ∈ ls, isCandidate l = false) ∧
  ∀ s, st.1 = some s →
    st.2 = s.LastUsed ∧ s ∈ ls ∧ isCandidate s = true ∧
      ∀ c ∈ ls, isCandidate c = true → s.LastUsed ≤ c.LastUsed

/-! ## Sample data -/

/-- The configuration `createLine` gives a new line. -/
def sampleConfig : LineConfig :=
  { AllowCalls := false, RespondToGroups := false, AutoMarkRead := true,
    AlwaysOnline := true, AutoReplyMsg := "" }

/-- A paired, connected, active line with the given id, session and last use. -/
def sampleLine (id : String) (handle : Nat) (lastUsed : Time) : Line :=
  { ID := id, Name := id, Status := "connected", QRCode := "",
    Client := some ⟨handle, some "5491150000000@s.whatsapp.net"⟩, WebhookURL := "",
    Available := true, LastUsed := lastUsed, Config := sampleConfig, Active := true }

/-- A text request to a ten-digit number. -/
def sampleText : MessageRequest :=
  { From := "", To := "5491155550000", Message := "hola", MediaType := "",
    MediaData := "", FileName := "", Caption := "", MimeType := "" }

/-- Collaborators that accept everything: every payload decodes to no bytes,
every upload and every send succeeds. -/
def sampleEnv : Env :=
  { base64Decode := fun _ => some []
    imageDecode := fun _ => some ⟨1, 1, fun _ _ => 0⟩
    jpegEncode := fun _ _ => some []
    upload := fun _ _ _ => some ⟨"", "", [], [], [], 0⟩
    sendMessage := fun _ _ _ => true }

/-- A connected line that the operator has paused. -/
def pausedLine : Line :=
  { sampleLine "line_4" 4 0 with Active := false, Available := false }

/-- A registry of three candidates last used at 10, 20 and 30 and one paused
line, in some iteration order. -/
def sampleRegistry : List Line :=
  [sampleLine "line_3" 3 30, pausedLine, sampleLine "line_1" 1 10, sampleLine "line_2" 2 20]

/-- The ASCII digits `'0'..'9'`, the test of line 995. -/
def isAsciiDigit (c : Char) : Bool := decide ('0' ≤ c ∧ c ≤ '9')

/-- An image request carrying the data URL of a PNG, with no declared type. -/
def sampleDataURL : MessageRequest :=
  { From := "", To := "5491155550000", Message := "", MediaType := "image",
    MediaData := "data:image/png;base64,iVBORw0KGgo=", FileName := "", Caption := "",
    MimeType := "" }

/-- A media request of the given category with a bare Base64 payload and no
declared type. -/
def sampleMedia (mediaType : String) : MessageRequest :=
  { From := "", To := "5491155550000", Message := "", MediaType := mediaType,
    MediaData := "AAAA", FileName := "", Caption := "", MimeType := "" }

/-- Collaborators as in `sampleEnv`, except that every payload decodes to `n`
zero bytes. -/
def sizedEnv (n : Nat) : Env :=
  { sampleEnv with base64Decode := fun _ => some (List.replicate n 0) }

/-- A uniform raster of the given size. -/
def blankImage (width height : Nat) : Image := ⟨width, height, fun _ _ => 0⟩

/-! ## Message log -/

/-- The bytes of a Go string: its UTF-8 encoding. -/
def utf8Bytes (s : String) : Bytes :=
  (s.data.flatMap String.utf8EncodeChar).map UInt8.toNat

/-- The row `logMessage` hands to the `INSERT`; `messageText` is a Go string
that need not be valid UTF-8 any more, so it is kept as bytes. -/
structure LogRow where
  lineID : String
  direction : String
  fromNumber : String
  toNumber : String
  messageType : String
  messageText : Bytes
  isGroup : Bool
deriving DecidableEq, Repr

/-- `logMessage` (lines 1327-1341): `len` and the slice `[:500]` count bytes. -/
def logMessage (lineID direction fromNumber toNumber messageType messageText : String)
    (isGroup : Bool) : LogRow :=
  let text := utf8Bytes messageText
  let text := if text.length > 500 then text.take 500 ++ utf8Bytes "..." else text
  ⟨lineID, direction, fromNumber, toNumber, messageType, text, isGroup⟩

/-- A text of 251 two-byte characters. -/
def accentedText : String := ⟨List.replicate 251 'é'⟩

/-! ## Lifecycle -/

/-- `evt.Info` of an `events.Message`. -/
structure MessageInfo where
  ID : String
  Timestamp : Time
  Chat : JID
  Sender : JID
  IsGroup : Bool
deriving DecidableEq, Repr

/-- What `handleEvent` reads of `evt.Message`: `GetConversation()`, the text of
`GetExtendedTextMessage()` when that is not nil, whether there is an image, the
PTT flag of `GetAudioMessage()` when that is not nil, whether there is a video,
whether there is a document. -/
structure IncomingMessage where
  Conversation : String
  ExtendedText : Option String
  HasImage : Bool
  AudioPTT : Option Bool
  HasVideo : Bool
  HasDocument : Bool
deriving DecidableEq, Repr

/-- The events of the session that `handleEvent` is called with; `Receipt`
carries whether its type is `Read` or `ReadSelf`, `Other` is any event the
type switch has no case for. -/
inductive Event where
  | Connected
  | LoggedOut
  | Message (info : MessageInfo) (message : IncomingMessage)
  | Receipt (read : Bool)
  | Other
deriving DecidableEq, Repr

/-- An item of the channel returned by `GetQRChannel`. -/
structure QREvent where
  Event : String
  Code : String
deriving DecidableEq, Repr

/-- `JID.String()` for a plain user identifier. -/
def JID.String (jid : JID) : String := jid.User ++ "@" ++ jid.Server

/-- `Store.ID` of the device `container.NewDevice()` returns: a fresh device
has no identifier until it is paired. -/
def NewDeviceID : Option String := none

/-- The operations a handler performs on the session, the registry and the
store, in program order (`spawnConnectLine` is `go connectLine(line)`;
`nilDereference` is the run-time panic of a field access through a nil
pointer, which ends the handler). -/
inductive Action where
  | disconnect (client : Client)
  | getQRChannel (client : Client)
  | connect (client : Client)
  | registryPut (lineID : String)
  | registryDelete (lineID : String)
  | saveLineToDB (line : Line)
  | deleteLineFromDB (lineID : String)
  | spawnConnectLine (lineID : String)
  | sendPresence (client : Option Client) (available : Bool)
  | markRead (client : Option Client) (messageID : String) (chat sender : JID)
  | logMessage (row : LogRow)
  | autoReply (client : Option Client) (chat : JID) (text : String)
  | sendToWebhook (url fromJID toJID message lineID : String)
  | log (text : String)
  | nilDereference
deriving DecidableEq, Repr

/-- Replies of the line-management handlers: an HTTP error, a JSON object of
string fields, or a line. -/
inductive AdminReply where
  | error (code : Nat) (msg : String)
  | json (fields : List (String × String))
  | line (line : Line)
deriving DecidableEq, Repr

/-- Outcome of a line-management handler. -/
structure AdminResult where
  lines : List Line
  actions : List Action
  reply : AdminReply
deriving DecidableEq, Repr

/-- `base64Table` of `encodeBase64`. -/
def base64Table : String :=
  "ABCDEFGHIJKLMNOPQRSTUVWXYZabcdefghijklmnopqrstuvwxyz0123456789+/"

/-- `base64Table[i]`. -/
def base64Char (i : Nat) : Char := base64Table.data.getD i 'A'

/-- The loop of `encodeBase64` (lines 1299-1321), three bytes per round; the
elements of `data` are bytes, so `b` fits a `uint32`. -/
def encodeBase64Loop : List Nat → List Char
  | [] => []
  | [d0] =>
    let b := d0 <<< 16
    [base64Char ((b >>> 18) &&& 0x3F), base64Char ((b >>> 12) &&& 0x3F), '=', '=']
  | [d0, d1] =>
    let b := (d0 <<< 16) ||| (d1 <<< 8)
    [base64Char ((b >>> 18) &&& 0x3F), base64Char ((b >>> 12) &&& 0x3F),
      base64Char ((b >>> 6) &&& 0x3F), '=']
  | d0 :: d1 :: d2 :: rest =>
    let b := (d0 <<< 16) ||| (d1 <<< 8) ||| d2
    base64Char ((b >>> 18) &&& 0x3F) :: base64Char ((b >>> 12) &&& 0x3F) ::
      base64Char ((b >>> 6) &&& 0x3F) :: base64Char (b &&& 0x3F) :: encodeBase64Loop rest

/-- `encodeBase64` (lines 1294-1324). -/
def encodeBase64 (data : Bytes) : String := ⟨encodeBase64Loop data⟩

/-- The assignment to the fields of the line `line.ID` through its pointer. -/
def registrySet (lines : List Line) (line : Line) : List Line :=
  lines.map fun l => if l.ID = line.ID then line else l

/-- `lines[line.ID] = line`: replaces the entry of that key if there is one,
adds an entry otherwise. -/
def registryPut (lines : List Line) (line : Line) : List Line :=
  if lines.any (fun l => l.ID == line.ID) then registrySet lines line else lines ++ [line]

/-- `delete(lines, id)`. -/
def registryDelete (lines : List Line) (id : String) : List Line :=
  lines.filter fun l => l.ID != id

/-- `handleEvent` (lines 404-493): the line afterwards and the work started.
In the `Connected` case a nil `Client` makes `line.Client.Store.ID` (line 415)
panic after the three fields have been written: nothing is started then. -/
def handleEvent (line : Line) (evt : Event) : Line × List Action :=
  match evt with
  | .Connected =>
    let line := { line with Status := "connected" }
    let line := if line.Active then { line with Available := true } else line
    let line := { line with QRCode := "" }
    (line,
      match line.Client with
      | none => [Action.nilDereference]
      | some client =>
        let save := if client.StoreID.isSome then [Action.saveLineToDB line] else []
        let presence :=
          if line.Config.AlwaysOnline && line.Active then [Action.sendPresence line.Client true]
          else []
        save ++ presence)
  | .LoggedOut =>
    ({ line with Status := "disconnected", Available := false }, [])
  | .Message info message =>
    if !line.Active then (line, [])
    else
      let read :=
        if line.Config.AutoMarkRead then
          [Action.markRead line.Client info.ID info.Chat info.Sender]
        else []
      if info.IsGroup && !line.Config.RespondToGroups then (line, read)
      else
        let messageText :=
          if message.Conversation == "" && message.ExtendedText.isSome then
            message.ExtendedText.getD ""
          else message.Conversation
        let messageType :=
          if message.HasImage then "image"
          else if message.AudioPTT.isSome then
            (if message.AudioPTT.getD false then "voice" else "audio")
          else if message.HasVideo then "video"
          else if message.HasDocument then "document"
          else "text"
        let logged := [Action.logMessage (logMessage line.ID "received" info.Sender.String
          info.Chat.String messageType messageText info.IsGroup)]
        let reply :=
          if line.Config.AutoReplyMsg != "" then
            [Action.autoReply line.Client info.Chat line.Config.AutoReplyMsg]
          else []
        let webhook :=
          if line.WebhookURL != "" then
            [Action.sendToWebhook line.WebhookURL info.Sender.String info.Chat.String
              messageText line.ID]
          else []
        (line, read ++ logged ++ reply ++ webhook)
  | .Receipt read =>
    (line, if read then [Action.log ("Mensaje leído en línea " ++ line.ID)] else [])
  | .Other => (line, [])

/-- The body of the loop over the QR channel (lines 382-391); `qrEncode` is
`qrcode.Encode`, `none` for an error. -/
def qrStep (qrEncode : String → Option Bytes) (line : Line) (evt : QREvent) : Line :=
  if evt.Event == "code" then
    match qrEncode evt.Code with
    | some png => { line with QRCode := "data:image/png;base64," ++ encodeBase64 png }
    | none => line
  else line

/-- `connectLine` (lines 369-401), run until the QR channel is closed:
`connectOK` tells whether `Client.Connect()` returned no error, `qrEvents` is
what the channel delivers.  On a nil client the goroutine dies at once. -/
def connectLine (qrEncode : String → Option Bytes) (connectOK : Bool)
    (qrEvents : List QREvent) (line : Line) : Line × List Action :=
  match line.Client with
  | none => (line, [])
  | some client =>
    if client.StoreID.isNone then
      if connectOK then
        (qrEvents.foldl (qrStep qrEncode) { line with Status := "qr_pending" },
          [.getQRChannel client, .connect client])
      else
        (line, [.getQRChannel client, .connect client,
          .log ("Error al conectar cliente " ++ line.ID)])
    else
      if connectOK then (line, [.connect client])
      else (line, [.connect client, .log ("Error al reconectar cliente " ++ line.ID)])

/-- The line `createLine` builds (lines 325-346) at Unix second `unix`, with a
new session object `handle`. -/
def newLine (name : String) (unix : Int) (handle : Nat) : Line :=
  { ID := "line_" ++ toString unix, Name := name, Status := "disconnected", QRCode := "",
    Client := some ⟨handle, NewDeviceID⟩, WebhookURL := "", Available := false,
    LastUsed := zeroTime,
    Config := { AllowCalls := false, RespondToGroups := false, AutoMarkRead := true,
                AlwaysOnline := true, AutoReplyMsg := "" },
    Active := true }

/-- `createLine` (lines 307-366), after the request body has been decoded;
`unix` is `time.Now().Unix()`. -/
def createLine (lines : List Line) (name : String) (unix : Int) (handle : Nat) :
    AdminResult :=
  if name == "" then
    ⟨lines, [], .error StatusBadRequest "El nombre es requerido"⟩
  else
    let line := newLine name unix handle
    ⟨registryPut lines line,
      [.registryPut line.ID, .saveLineToDB line, .spawnConnectLine line.ID], .line line⟩

/-- A row of the table `lines` as `loadExistingLines` scans it. -/
structure StoredRow where
  id : String
  name : String
  webhookURL : String
  allowCalls : Bool
  respondToGroups : Bool
  autoMarkRead : Bool
  alwaysOnline : Bool
  autoReplyMsg : String
  active : Bool
  jid : String
deriving DecidableEq, Repr

/-- The device lookup of lines 248-263: `devices` is the result of
`container.GetAllDevices` (`none` for an error), each device given by the
string of its `ID` (`none` for nil). -/
def findDevice (devices : Option (List (Option String))) (jid : String) : Option String :=
  if jid != "" then
    match devices with
    | none => NewDeviceID
    | some devs =>
      match devs.find? (fun dev => dev.isSome && dev.getD "" == jid) with
      | some dev => dev
      | none => NewDeviceID
  else NewDeviceID

/-- The line built for one row (lines 265-283). -/
def loadedLine (devices : Option (List (Option String))) (handle : Nat) (row : StoredRow) :
    Line :=
  { ID := row.id, Name := row.name, Status := "disconnected", QRCode := "",
    Client := some ⟨handle, findDevice devices row.jid⟩, WebhookURL := row.webhookURL,
    Available := false, LastUsed := zeroTime,
    Config := { AllowCalls := row.allowCalls, RespondToGroups := row.respondToGroups,
                AutoMarkRead := row.autoMarkRead, AlwaysOnline := row.alwaysOnline,
                AutoReplyMsg := row.autoReplyMsg },
    Active := row.active }

/-- One round of the loop of `loadExistingLines` (lines 236-301); a row that
fails to scan is `none` and is skipped; the session object of the round is
numbered after the lines loaded so far. -/
def loadRow (devices : Option (List (Option String)))
    (acc : List Line × List Action) (row : Option StoredRow) : List Line × List Action :=
  match row with
  | none => (acc.1, acc.2 ++ [.log "Error al leer línea de DB"])
  | some row =>
    let line := loadedLine devices acc.1.length row
    let spawn :=
      if (findDevice devices row.jid).isSome && row.active then [Action.spawnConnectLine row.id]
      else []
    (registryPut acc.1 line, acc.2 ++ [.registryPut row.id] ++ spawn)

/-- `loadExistingLines` (lines 225-304) over the rows the query returns. -/
def loadExistingLines (devices : Option (List (Option String))) (lines : List Line)
    (rows : List (Option StoredRow)) : List Line × List Action :=
  rows.foldl (loadRow devices) (lines, [])

/-- The field updates of `toggleLineActive` (lines 734-756) and the presence
call started. -/
def toggleLine (line : Line) (active : Bool) : Line × List Action :=
  let line := { line with Active := active }
  if !active then
    ({ line with Available := false },
      if line.Status == "connected" then [.sendPresence line.Client false] else [])
  else if line.Status == "connected" then
    ({ line with Available := true },
      if line.Config.AlwaysOnline then [.sendPresence line.Client true] else [])
  else (line, [])

/-- `toggleLineActive` (lines 712-774), after the request body has been decoded. -/
def toggleLineActive (lines : List Line) (lineID : String) (active : Bool) : AdminResult :=
  match lookupLine lines lineID with
  | none => ⟨lines, [], .error StatusNotFound "Línea no encontrada"⟩
  | some line =>
    let toggled := toggleLine line active
    ⟨registrySet lines toggled.1, toggled.2 ++ [.saveLineToDB toggled.1],
      .json [("message", "Línea " ++ (if active then "activada" else "desactivada")),
        ("active", toString active)]⟩

/-- The fields `reconnectLine` resets when it installs the new client
(lines 810-814). -/
def resetLine (line : Line) (newClient : Client) : Line :=
  { line with Client := some newClient, Status := "disconnected", QRCode := "",
              Available := false }

/-- `reconnectLine` (lines 777-830); `handle` numbers the new session object. -/
def reconnectLine (lines : List Line) (lineID : String) (handle : Nat) : AdminResult :=
  match lookupLine lines lineID with
  | none => ⟨lines, [], .error StatusNotFound "Línea no encontrada"⟩
  | some line =>
    if line.Status == "connected" then
      ⟨lines, [], .json [("message", "La línea ya está conectada"), ("status", "connected")]⟩
    else
      let teardown := match line.Client with
        | some client => [Action.disconnect client]
        | none => []
      let newClient : Client := ⟨handle, NewDeviceID⟩
      ⟨registrySet lines (resetLine line newClient), teardown ++ [.spawnConnectLine lineID],
        .json [("message", "Reconexión iniciada, generando nuevo código QR..."),
          ("status", "qr_pending"), ("line_id", lineID)]⟩

/-- `deleteLine` (lines 601-628); `deleteOK` tells whether `deleteLineFromDB`
returned no error. -/
def deleteLine (lines : List Line) (lineID : String) (deleteOK : Bool) : AdminResult :=
  match lookupLine lines lineID with
  | none => ⟨lines, [], .error StatusNotFound "Línea no encontrada"⟩
  | some line =>
    let teardown := match line.Client with
      | some client => [Action.disconnect client]
      | none => []
    ⟨registryDelete lines lineID,
      teardown ++ [.registryDelete lineID, .deleteLineFromDB lineID] ++
        (if deleteOK then [] else [.log "Error al eliminar línea de DB"]),
      .json [("message", "Línea eliminada")]⟩

/-- `setWebhook` (lines 631-660), after the request body has been decoded. -/
def setWebhook (lines : List Line) (lineID : String) (url : String) : AdminResult :=
  match lookupLine lines lineID with
  | none => ⟨lines, [], .error StatusNotFound "Línea no encontrada"⟩
  | some line =>
    let line := { line with WebhookURL := url }
    ⟨registrySet lines line, [.saveLineToDB line], .json [("message", "Webhook configurado")]⟩

/-- `updateLineConfig` (lines 663-709), after the request body has been decoded
(the `config` object echoed in the reply is left out of the reply fields). -/
def updateLineConfig (lines : List Line) (lineID : String) (newConfig : LineConfig) :
    AdminResult :=
  match lookupLine lines lineID with
  | none => ⟨lines, [], .error StatusNotFound "Línea no encontrada"⟩
  | some line =>
    let line := { line with Config := newConfig }
    let presence :=
      if line.Status == "connected" then
        [Action.sendPresence line.Client newConfig.AlwaysOnline]
      else []
    ⟨registrySet lines line, [.saveLineToDB line] ++ presence,
      .json [("message", "Configuración actualizada")]⟩

/-- Delivery of a session event to the handler registered for the line
`lineID` (the closures of lines 349-351, 286-288 and 817-819). -/
def dispatchEvent (lines : List Line) (lineID : String) (evt : Event) :
    List Line × List Action :=
  match lookupLine lines lineID with
  | none => (lines, [])
  | some line => (registrySet lines (handleEvent line evt).1, (handleEvent line evt).2)

/-- The value of a decimal digit character. -/
def digitVal (c : Char) : Nat := c.toNat - 48

/-- The number a string of decimal digits denotes. -/
def decimalValue (cs : List Char) : Nat := cs.foldl (fun a c => 10 * a + digitVal c) 0

/-- The derived-availability invariant of a line:
`Available = (Status = "connected" ∧ Active)`. -/
def AvailInv (line : Line) : Prop :=
  line.Available = true ↔ (line.Status = "connected" ∧ line.Active = true)

/-- The registry after a run of `connectLine` on the line `lineID`, up to the
pairing events `qrEvents` delivered so far. -/
def runConnectLine (qrEncode : String → Option Bytes) (connectOK : Bool)
    (qrEvents : List QREvent) (lines : List Line) (lineID : String) : List Line :=
  match lookupLine lines lineID with
  | none => lines
  | some line => registrySet lines (connectLine qrEncode connectOK qrEvents line).1

/-- The registry after one more round of the pairing loop of a running
`connectLine` on the line `lineID`. -/
def runQRStep (qrEncode : String → Option Bytes) (evt : QREvent) (lines : List Line)
    (lineID : String) : List Line :=
  match lookupLine lines lineID with
  | none => lines
  | some line => registrySet lines (qrStep qrEncode line evt)

/-- The registries the gateway can be in when every run of `connectLine` meets
its line in a state that satisfies `connectGuard`: the registry starts empty and
changes by loading the stored rows, by the create, toggle, reconnect,
configuration, webhook and delete handlers, by the two send handlers, by a
session event delivered to the handler of a line, by a run of `connectLine`
and by a round of its pairing loop. -/
inductive ReachableWhen (connectGuard : Line → Prop) : List Line → Prop where
  | start : ReachableWhen connectGuard []
  | load (devices : Option (List (Option String))) (lines : List Line)
      (rows : List (Option StoredRow)) :
      ReachableWhen connectGuard lines →
        ReachableWhen connectGuard (loadExistingLines devices lines rows).1
  | create (lines : List Line) (name : String) (unix : Int) (handle : Nat) :
      ReachableWhen connectGuard lines →
        ReachableWhen connectGuard (createLine lines name unix handle).lines
  | event (lines : List Line) (lineID : String) (evt : Event) :
      ReachableWhen connectGuard lines →
        ReachableWhen connectGuard (dispatchEvent lines lineID evt).1
  | toggle (lines : List Line) (lineID : String) (active : Bool) :
      ReachableWhen connectGuard lines →
        ReachableWhen connectGuard (toggleLineActive lines lineID active).lines
  | reconnect (lines : List Line) (lineID : String) (handle : Nat) :
      ReachableWhen connectGuard lines →
        ReachableWhen connectGuard (reconnectLine lines lineID handle).lines
  | config (lines : List Line) (lineID : String) (newConfig : LineConfig) :
      ReachableWhen connectGuard lines →
        ReachableWhen connectGuard (updateLineConfig lines lineID newConfig).lines
  | webhook (lines : List Line) (lineID : String) (url : String) :
      ReachableWhen connectGuard lines →
        ReachableWhen connectGuard (setWebhook lines lineID url).lines
  | delete (lines : List Line) (lineID : String) (deleteOK : Bool) :
      ReachableWhen connectGuard lines →
        ReachableWhen connectGuard (deleteLine lines lineID deleteOK).lines
  | send (env : Env) (now : Time) (lines : List Line) (req : MessageRequest) :
      ReachableWhen connectGuard lines →
        ReachableWhen connectGuard (sendMessage env now lines req).lines
  | sendAuto (env : Env) (now : Time) (lines : List Line) (req : MessageRequest) :
      ReachableWhen connectGuard lines →
        ReachableWhen connectGuard (sendMessageAuto env now lines req).lines
  | connect (qrEncode : String → Option Bytes) (connectOK : Bool) (qrEvents : List QREvent)
      (lines : List Line) (lineID : String) :
      ReachableWhen connectGuard lines →
        (∀ line, lookupLine lines lineID = some line → connectGuard line) →
        ReachableWhen connectGuard (runConnectLine qrEncode connectOK qrEvents lines lineID)
  | qrRound (qrEncode : String → Option Bytes) (evt : QREvent) (lines : List Line)
      (lineID : String) :
      ReachableWhen connectGuard lines →
        ReachableWhen connectGuard (runQRStep qrEncode evt lines lineID)

/-- The registries the gateway can be in, with no condition on the state in
which a run of `connectLine` meets its line. -/
def Reachable (lines : List Line) : Prop := ReachableWhen (fun _ => True) lines

/-- A line in the middle of pairing: no credential yet, a QR code on display. -/
def pairingLine : Line :=
  { newLine "ventas" 1700000000 1 with
    Status := "qr_pending", QRCode := "data:image/png;base64,iVBORw0KGgo=" }

/-- A paired line whose session is down. -/
def idleLine : Line :=
  { sampleLine "line_7" 7 0 with Status := "disconnected", Available := false }

/-- A QR encoder that returns the bytes 1, 2, 3 for every code. -/
def sampleQR : String → Option Bytes := fun _ => some [1, 2, 3]

/-! ## Reference Base64 -/

/-- The alphabet of standard Base64 (RFC 4648, table 1): `A-Z`, `a-z`, `0-9`,
`+` and `/`. -/
def isBase64Alphabet (c : Char) : Bool :=
  decide (('A' ≤ c ∧ c ≤ 'Z') ∨ ('a' ≤ c ∧ c ≤ 'z') ∨ ('0' ≤ c ∧ c ≤ '9') ∨ c = '+' ∨ c = '/')

/-- The 6-bit value of an alphabet character (RFC 4648, table 1); `none` for
any other character, the pad `=` included. -/
def base64Value (c : Char) : Option Nat :=
  if 'A' ≤ c ∧ c ≤ 'Z' then some (c.toNat - 65)
  else if 'a' ≤ c ∧ c ≤ 'z' then some (c.toNat - 97 + 26)
  else if '0' ≤ c ∧ c ≤ '9' then some (c.toNat - 48 + 52)
  else if c = '+' then some 62
  else if c = '/' then some 63
  else none

/-- Reference decoder, not taken from the source: standard padded Base64 of
RFC 4648, section 4.  The text is read four characters at a time; four alphabet
characters give three bytes; a final group `xx==` gives one byte and a final
group `xxx=` gives two; the bits of a final group that belong to no byte have
to be zero; anything else is rejected. -/
def stdBase64Decode : List Char → Option Bytes
  | [] => some []
  | c0 :: c1 :: c2 :: c3 :: rest =>
    if rest = [] ∧ c3 = '=' then
      if c2 = '=' then
        match base64Value c0, base64Value c1 with
        | some v0, some v1 =>
          if v1 % 16 = 0 then some [v0 * 4 + v1 / 16] else none
        | _, _ => none
      else
        match base64Value c0, base64Value c1, base64Value c2 with
        | some v0, some v1, some v2 =>
          if v2 % 4 = 0 then some [v0 * 4 + v1 / 16, v1 % 16 * 16 + v2 / 4] else none
        | _, _, _ => none
    else
      match base64Value c0, base64Value c1, base64Value c2, base64Value c3 with
      | some v0, some v1, some v2, some v3 =>
        (stdBase64Decode rest).map
          fun bytes => (v0 * 4 + v1 / 16) :: (v1 % 16 * 16 + v2 / 4) :: (v2 % 4 * 64 + v3) :: bytes
      | _, _, _, _ => none
  | _ => none

/-- A request for a text message with no text, naming `line_1`. -/
def emptyTextRequest : MessageRequest :=
  { From := "line_1", To := "5491155550000", Message := "", MediaType := "text",
    MediaData := "", FileName := "", Caption := "", MimeType := "" }

/-- An audio request carrying the data URL of an MP3, with no declared type. -/
def audioDataURL : MessageRequest :=
  { From := "", To := "5491155550000", Message := "", MediaType := "audio",
    MediaData := "data:audio/mpeg;base64,SUQzBAAA", FileName := "", Caption := "",
    MimeType := "" }

/-- The image request `sampleDataURL` with the type `image/png` declared. -/
def declaredDataURL : MessageRequest :=
  { From := "", To := "5491155550000", Message := "", MediaType := "image",
    MediaData := "data:image/png;base64,iVBORw0KGgo=", FileName := "", Caption := "",
    MimeType := "image/png" }

/-! ## Properties of the selection loop -/

theorem isCandidate_iff (l : Line) :
    isCandidate l = true ↔ l.Available = true ∧ l.Status = "connected" ∧ l.Active = true := by
  simp [isCandidate, and_assoc]

theorem selectLine_snoc (ls : List Line) (x : Line) :
    selectLine (ls ++ [x]) = selectStep (selectLine ls) x := by
  simp [selectLine, List.foldl_append]

theorem selectInv_selectLine (ls : List Line) : SelectInv ls (selectLine ls) := by
  induction ls using List.reverseRecOn with
  | nil => simp [SelectInv, selectLine]
  | append_singleton ls x ih =>
    rw [selectLine_snoc]
    obtain ⟨hnone, hsome⟩ := ih
    rcases hsel : selectLine ls with ⟨sel, t⟩
    rw [hsel] at hnone hsome
    by_cases hx : isCandidate x = true
    · cases sel with
      | none =>
        have hno := hnone rfl
        have hstep : selectStep (none, t) x = (some x, x.LastUsed) := by
          simp [selectStep, hx]
        rw [hstep]
        refine ⟨by simp, ?_⟩
        intro s hs
        simp only [Option.some.injEq] at hs
        subst hs
        refine ⟨rfl, by simp, hx, ?_⟩
        intro c hc hcc
        rcases List.mem_append.mp hc with h | h
        · rw [hno c h] at hcc; exact absurd hcc (by simp)
        · simp at h; subst h; exact le_refl _
      | some s0 =>
        obtain ⟨ht, hmem, hcand, hmin⟩ := hsome s0 rfl
        simp only at ht
        by_cases hlt : x.LastUsed < t
        · have hstep : selectStep (some s0, t) x = (some x, x.LastUsed) := by
            simp [selectStep, hx, hlt]
          rw [hstep]
          refine ⟨by simp, ?_⟩
          intro s hs
          simp only [Option.some.injEq] at hs
          subst hs
          refine ⟨rfl, by simp, hx, ?_⟩
          intro c hc hcc
          rcases List.mem_append.mp hc with h | h
          · have h1 := hmin c h hcc
            rw [ht] at hlt
            exact le_of_lt (lt_of_lt_of_le hlt h1)
          · simp at h; subst h; exact le_refl _
        · have hstep : selectStep (some s0, t) x = (some s0, t) := by
            simp [selectStep, hx, hlt]
          rw [hstep]
          refine ⟨by simp, ?_⟩
          intro s hs
          simp only [Option.some.injEq] at hs
          subst hs
          refine ⟨ht, by simp [hmem], hcand, ?_⟩
          intro c hc hcc
          rcases List.mem_append.mp hc with h | h
          · exact hmin c h hcc
          · simp at h; subst h
            rw [ht] at hlt
            exact not_lt.mp hlt
    · have hx' : isCandidate x = false := by simpa using hx
      have hstep : selectStep (sel, t) x = (sel, t) := by simp [selectStep, hx']
      rw [hstep]
      refine ⟨?_, ?_⟩
      · intro h l hl
        rcases List.mem_append.mp hl with h1 | h1
        · exact hnone h l h1
        · simp at h1; subst h1; exact hx'
      · intro s hs
        obtain ⟨ht, hmem, hcand, hmin⟩ := hsome s hs
        refine ⟨ht, by simp [hmem], hcand, ?_⟩
        intro c hc hcc
        rcases List.mem_append.mp hc with h | h
        · exact hmin c h hcc
        · simp at h; subst h; rw [hx'] at hcc; exact absurd hcc (by simp)

theorem selectLine_none_iff (ls : List Line) :
    (selectLine ls).1 = none ↔ ∀ l ∈ ls, isCandidate l = false := by
  constructor
  · exact (selectInv_selectLine ls).1
  · intro h
    cases hsel : (selectLine ls).1 with
    | none => rfl
    | some s =>
      obtain ⟨_, hmem, hcand, _⟩ := (selectInv_selectLine ls).2 s hsel
      rw [h s hmem] at hcand
      exact absurd hcand (by simp)

theorem selectLine_some (ls : List Line) (s : Line) (h : (selectLine ls).1 = some s) :
    s ∈ ls ∧ isCandidate s = true ∧
      ∀ c ∈ ls, isCandidate c = true → s.LastUsed ≤ c.LastUsed :=
  let ⟨_, hmem, hcand, hmin⟩ := (selectInv_selectLine ls).2 s h
  ⟨hmem, hcand, hmin⟩

theorem deliver_reply (env : Env) (now : Time) (lines : List Line) (line : Line)
    (req : MessageRequest) (recipient : JID) (before : List Effect) (msg : Message) :
    (deliver env now lines line req recipient before msg).reply.code ≠ some 503 ∧
      ∀ id, (deliver env now lines line req recipient before msg).reply = .sent id →
        id = line.ID := by
  unfold deliver
  by_cases hsend : env.sendMessage line.Client recipient msg = true
  · cases hid : line.Client.bind (·.StoreID) with
    | none => simp [hsend, hid, Reply.code]
    | some sender =>
      simp only [hsend, hid, if_true]
      refine ⟨by simp [Reply.code], ?_⟩
      intro id h
      simp only [Reply.sent.injEq] at h
      exact h.symm
  · simp [hsend, Reply.code, StatusInternalServerError]

theorem sendMessageAuto_of_none (env : Env) (now : Time) (lines : List Line)
    (req : MessageRequest) (hto : req.To ≠ "")
    (hbody : ¬ (req.Message = "" ∧ req.MediaType = ""))
    (hsel : (selectLine lines).1 = none) :
    sendMessageAuto env now lines req =
      ⟨lines, [], .error StatusServiceUnavailable "No hay líneas disponibles"⟩ := by
  unfold sendMessageAuto
  have h1 : (req.To == "") = false := by simpa using hto
  have h2 : (req.Message == "" && req.MediaType == "") = false := by
    rw [Bool.and_eq_false_iff]
    by_cases hm : req.Message = ""
    · right; simpa using fun h => hbody ⟨hm, h⟩
    · left; simpa using hm
  simp only [h1, h2, hsel, Bool.false_eq_true, if_false]

theorem sendMessageAuto_of_some (env : Env) (now : Time) (lines : List Line)
    (req : MessageRequest) (s : Line) (hto : req.To ≠ "")
    (hbody : ¬ (req.Message = "" ∧ req.MediaType = ""))
    (hsel : (selectLine lines).1 = some s) :
    (sendMessageAuto env now lines req).reply.code ≠ some 503 ∧
      ∀ id, (sendMessageAuto env now lines req).reply = .sent id → id = s.ID := by
  unfold sendMessageAuto
  have h1 : (req.To == "") = false := by simpa using hto
  have h2 : (req.Message == "" && req.MediaType == "") = false := by
    rw [Bool.and_eq_false_iff]
    by_cases hm : req.Message = ""
    · right; simpa using fun h => hbody ⟨hm, h⟩
    · left; simpa using hm
  simp only [h1, h2, hsel, Bool.false_eq_true, if_false]
  cases hjid : parseJID req.To with
  | error e => simp [Reply.code, StatusBadRequest]
  | ok recipient =>
    simp only
    split
    · cases hres : (createMediaMessage env s.Client req).result with
      | error e => simp [Reply.code, StatusInternalServerError]
      | ok msg => exact deliver_reply ..
    · exact deliver_reply ..

/-- C1. Auto-selection in `sendMessageAuto`: whatever the order in which the
registry is iterated, nothing is selected exactly when no line is available,
connected and active, and then a request that passed validation is answered 503
"No hay líneas disponibles" with no upload and no send; otherwise the selected
line is such a candidate of the registry whose `LastUsed` is at most that of
every candidate (so a never-used candidate forces a never-used selection, as
`LastUsed` is never before the zero time), and it is the line a success reply
names. -/
theorem sendMessageAuto_selects_least_recently_used (registry order : List Line)
    (horder : order.Perm registry) :
    ((selectLine order).1 = none ↔
        ¬ ∃ l ∈ registry, l.Available = true ∧ l.Status = "connected" ∧ l.Active = true) ∧
    (∀ (env : Env) (now : Time) (req : MessageRequest),
        req.To ≠ "" → ¬ (req.Message = "" ∧ req.MediaType = "") →
        ((sendMessageAuto env now order req).reply.code = some 503 ↔
            (selectLine order).1 = none) ∧
        ((selectLine order).1 = none →
            (sendMessageAuto env now order req).reply =
                .error 503 "No hay líneas disponibles" ∧
            (sendMessageAuto env now order req).effects = [] ∧
            (sendMessageAuto env now order req).lines = order) ∧
        ∀ s, (selectLine order).1 = some s →
            ∀ id, (sendMessageAuto env now order req).reply = .sent id → id = s.ID) ∧
    (∀ s, (selectLine order).1 = some s →
        s ∈ registry ∧
        (s.Available = true ∧ s.Status = "connected" ∧ s.Active = true) ∧
        (∀ c ∈ registry, c.Available = true ∧ c.Status = "connected" ∧ c.Active = true →
            s.LastUsed ≤ c.LastUsed) ∧
        ((∀ c ∈ registry, zeroTime ≤ c.LastUsed) →
          (∃ c ∈ registry, (c.Available = true ∧ c.Status = "connected" ∧ c.Active = true) ∧
              c.LastUsed = zeroTime) →
          s.LastUsed = zeroTime)) := by
  have hmem : ∀ l, l ∈ order ↔ l ∈ registry := fun l => horder.mem_iff
  refine ⟨?_, ?_, ?_⟩
  · rw [selectLine_none_iff]
    constructor
    · rintro h ⟨l, hl, hc⟩
      have := h l ((hmem l).mpr hl)
      rw [(isCandidate_iff l).mpr hc] at this
      exact absurd this (by simp)
    · intro h l hl
      by_contra hc
      have hc' : isCandidate l = true := by simpa using hc
      exact h ⟨l, (hmem l).mp hl, (isCandidate_iff l).mp hc'⟩
  · intro env now req hto hbody
    refine ⟨?_, ?_, ?_⟩
    · constructor
      · intro h
        cases hsel : (selectLine order).1 with
        | none => rfl
        | some s => exact absurd h (sendMessageAuto_of_some env now order req s hto hbody hsel).1
      · intro h
        rw [sendMessageAuto_of_none env now order req hto hbody h]
        rfl
    · intro h
      rw [sendMessageAuto_of_none env now order req hto hbody h]
      exact ⟨rfl, rfl, rfl⟩
    · intro s hsel
      exact (sendMessageAuto_of_some env now order req s hto hbody hsel).2
  · intro s hsel
    obtain ⟨hin, hcand, hmin⟩ := selectLine_some order s hsel
    have hle : ∀ c ∈ registry,
        c.Available = true ∧ c.Status = "connected" ∧ c.Active = true →
          s.LastUsed ≤ c.LastUsed :=
      fun c hc hcc => hmin c ((hmem c).mpr hc) ((isCandidate_iff c).mpr hcc)
    refine ⟨(hmem s).mp hin, (isCandidate_iff s).mp hcand, hle, ?_⟩
    rintro hnonneg ⟨c, hc, hcc, hzero⟩
    have h1 := hle c hc hcc
    have h2 := hnonneg s ((hmem s).mp hin)
    rw [hzero] at h1
    exact le_antisymm h1 h2

/-- Witness of C1 on a registry of a never-used and a used line, iterated in
the other order. -/
theorem sendMessageAuto_selects_least_recently_used_witness :
    [sampleLine "line_2" 2 7, sampleLine "line_1" 1 0].Perm
        [sampleLine "line_1" 1 0, sampleLine "line_2" 2 7] ∧
      (sampleLine "line_1" 1 0).LastUsed = zeroTime ∧
      ∀ c ∈ [sampleLine "line_1" 1 0, sampleLine "line_2" 2 7],
        c.Available = true ∧ c.Status = "connected" ∧ c.Active = true →
          (sampleLine "line_1" 1 0).LastUsed ≤ c.LastUsed :=
  ⟨List.Perm.swap _ _ _, rfl,
    ((sendMessageAuto_selects_least_recently_used
      [sampleLine "line_1" 1 0, sampleLine "line_2" 2 7]
      [sampleLine "line_2" 2 7, sampleLine "line_1" 1 0] (List.Perm.swap _ _ _)).2.2
      (sampleLine "line_1" 1 0) (by decide)).2.2.1⟩

/-! ## Order of iteration and ties -/

theorem foldl_selectStep_keep (s : Line) (post : List Line)
    (h : ∀ c ∈ post, isCandidate c = true → s.LastUsed ≤ c.LastUsed) :
    post.foldl selectStep (some s, s.LastUsed) = (some s, s.LastUsed) := by
  induction post with
  | nil => rfl
  | cons x xs ih =>
    have hx : selectStep (some s, s.LastUsed) x = (some s, s.LastUsed) := by
      by_cases hc : isCandidate x = true
      · have := h x (by simp) hc
        simp [selectStep, hc, not_lt.mpr this]
      · simp [selectStep, hc]
    rw [List.foldl_cons, hx]
    exact ih fun c hc => h c (List.mem_cons_of_mem _ hc)

theorem selectLine_first_least (pre post : List Line) (s : Line)
    (hs : isCandidate s = true)
    (hpre : ∀ c ∈ pre, isCandidate c = true → s.LastUsed < c.LastUsed)
    (hpost : ∀ c ∈ post, isCandidate c = true → s.LastUsed ≤ c.LastUsed) :
    (selectLine (pre ++ s :: post)).1 = some s := by
  have hstep : selectStep (selectLine pre) s = (some s, s.LastUsed) := by
    obtain ⟨_, hsome⟩ := selectInv_selectLine pre
    rcases hsel : selectLine pre with ⟨sel, t⟩
    rw [hsel] at hsome
    cases sel with
    | none => simp [selectStep, hs]
    | some p =>
      obtain ⟨ht, hmem, hcand, _⟩ := hsome p rfl
      simp only at ht
      have := hpre p hmem hcand
      rw [← ht] at this
      simp [selectStep, hs, this]
  have : selectLine (pre ++ s :: post) = post.foldl selectStep (selectStep (selectLine pre) s) := by
    simp [selectLine, List.foldl_append]
  rw [this, hstep, foldl_selectStep_keep s post hpost]

/-- C2, as the code has it: the last use of the selected line does not depend
on the order of iteration, and neither does the line itself as long as a single
candidate holds the least `LastUsed`; among candidates that tie for the least
`LastUsed` the one iterated first is selected. -/
theorem selectLine_deterministic_up_to_ties (registry order₁ order₂ : List Line)
    (h₁ : order₁.Perm registry) (h₂ : order₂.Perm registry) :
    ((selectLine order₁).1.map (·.LastUsed) = (selectLine order₂).1.map (·.LastUsed)) ∧
    ((∀ a ∈ registry, ∀ b ∈ registry, isCandidate a = true → isCandidate b = true →
        (∀ c ∈ registry, isCandidate c = true → a.LastUsed ≤ c.LastUsed) →
        a.LastUsed = b.LastUsed → a = b) →
      (selectLine order₁).1 = (selectLine order₂).1) ∧
    (∀ pre post s, order₁ = pre ++ s :: post → isCandidate s = true →
      (∀ c ∈ pre, isCandidate c = true → s.LastUsed < c.LastUsed) →
      (∀ c ∈ post, isCandidate c = true → s.LastUsed ≤ c.LastUsed) →
      (selectLine order₁).1 = some s) := by
  have hmem : ∀ l, l ∈ order₁ ↔ l ∈ order₂ := fun l => (h₁.trans h₂.symm).mem_iff
  have hcases : ((selectLine order₁).1 = none ∧ (selectLine order₂).1 = none) ∨
      ∃ a b, (selectLine order₁).1 = some a ∧ (selectLine order₂).1 = some b ∧
        a ∈ registry ∧ b ∈ registry ∧ isCandidate a = true ∧ isCandidate b = true ∧
        (∀ c ∈ registry, isCandidate c = true → a.LastUsed ≤ c.LastUsed) ∧
        a.LastUsed = b.LastUsed := by
    cases ha : (selectLine order₁).1 with
    | none =>
      left
      refine ⟨rfl, ?_⟩
      rw [selectLine_none_iff] at ha ⊢
      exact fun l hl => ha l ((hmem l).mpr hl)
    | some a =>
      cases hb : (selectLine order₂).1 with
      | none =>
        rw [selectLine_none_iff] at hb
        obtain ⟨hin, hcand, _⟩ := selectLine_some order₁ a ha
        rw [hb a ((hmem a).mp hin)] at hcand
        exact absurd hcand (by simp)
      | some b =>
        right
        obtain ⟨hain, hacand, hamin⟩ := selectLine_some order₁ a ha
        obtain ⟨hbin, hbcand, hbmin⟩ := selectLine_some order₂ b hb
        refine ⟨a, b, rfl, rfl, h₁.mem_iff.mp hain, h₂.mem_iff.mp hbin, hacand, hbcand, ?_, ?_⟩
        · exact fun c hc hcc => hamin c (h₁.mem_iff.mpr hc) hcc
        · exact le_antisymm (hamin b ((hmem b).mpr hbin) hbcand)
            (hbmin a ((hmem a).mp hain) hacand)
  refine ⟨?_, ?_, ?_⟩
  · rcases hcases with ⟨ha, hb⟩ | ⟨a, b, ha, hb, -, -, -, -, -, hab⟩
    · rw [ha, hb]
    · rw [ha, hb]; simp [hab]
  · intro huniq
    rcases hcases with ⟨ha, hb⟩ | ⟨a, b, ha, hb, hain, hbin, hac, hbc, hamin, hab⟩
    · rw [ha, hb]
    · rw [ha, hb, huniq a hain b hbin hac hbc hamin hab]
  · intro pre post s heq hs hpre hpost
    rw [heq]
    exact selectLine_first_least pre post s hs hpre hpost

/-- Witness of the amended C2: two candidates with different last use, iterated
in both orders. -/
theorem selectLine_deterministic_up_to_ties_witness :
    [sampleLine "line_1" 1 3, sampleLine "line_2" 2 7].Perm
        [sampleLine "line_1" 1 3, sampleLine "line_2" 2 7] ∧
      [sampleLine "line_2" 2 7, sampleLine "line_1" 1 3].Perm
        [sampleLine "line_1" 1 3, sampleLine "line_2" 2 7] ∧
      (selectLine [sampleLine "line_1" 1 3, sampleLine "line_2" 2 7]).1.map (·.LastUsed) =
        (selectLine [sampleLine "line_2" 2 7, sampleLine "line_1" 1 3]).1.map (·.LastUsed) :=
  ⟨List.Perm.refl _, List.Perm.swap _ _ _,
    (selectLine_deterministic_up_to_ties _ _ _ (List.Perm.refl _) (List.Perm.swap _ _ _)).1⟩

/-- C2 fails as stated: two never-used candidates `line_1` and `line_2`; iterated
as `line_1, line_2` the send goes out on `line_1`, iterated as `line_2, line_1`
it goes out on `line_2`. -/
theorem selectLine_depends_on_order :
    [sampleLine "line_2" 2 0, sampleLine "line_1" 1 0].Perm
        [sampleLine "line_1" 1 0, sampleLine "line_2" 2 0] ∧
      (selectLine [sampleLine "line_1" 1 0, sampleLine "line_2" 2 0]).1 =
        some (sampleLine "line_1" 1 0) ∧
      (selectLine [sampleLine "line_2" 2 0, sampleLine "line_1" 1 0]).1 =
        some (sampleLine "line_2" 2 0) ∧
      (sendMessageAuto sampleEnv 9 [sampleLine "line_1" 1 0, sampleLine "line_2" 2 0]
        sampleText).reply = .sent "line_1" ∧
      (sendMessageAuto sampleEnv 9 [sampleLine "line_2" 2 0, sampleLine "line_1" 1 0]
        sampleText).reply = .sent "line_2" ∧
      ¬ ∀ registry order₁ order₂ : List Line, order₁.Perm registry → order₂.Perm registry →
          (selectLine order₁).1 = (selectLine order₂).1 := by
  refine ⟨List.Perm.swap _ _ _, by decide, by decide, by decide, by decide, ?_⟩
  intro h
  have := h [sampleLine "line_1" 1 0, sampleLine "line_2" 2 0]
    [sampleLine "line_1" 1 0, sampleLine "line_2" 2 0]
    [sampleLine "line_2" 2 0, sampleLine "line_1" 1 0] (List.Perm.refl _) (List.Perm.swap _ _ _)
  revert this
  decide

/-! ## Rotation -/

theorem deliver_ok (env : Env) (now : Time) (lines : List Line) (line : Line)
    (req : MessageRequest) (recipient : JID) (before : List Effect) (msg : Message)
    (h : (deliver env now lines line req recipient before msg).reply.code = some 200) :
    (deliver env now lines line req recipient before msg).reply = .sent line.ID ∧
      (deliver env now lines line req recipient before msg).lines =
        setLastUsed lines line.ID now := by
  unfold deliver at h ⊢
  by_cases hsend : env.sendMessage line.Client recipient msg = true
  · cases hid : line.Client.bind (·.StoreID) with
    | none => simp [hsend, hid, Reply.code] at h
    | some sender => simp [hsend, hid]
  · simp [hsend, Reply.code, StatusInternalServerError] at h

theorem sendMessageAuto_cases (env : Env) (now : Time) (lines : List Line)
    (req : MessageRequest) (s : Line) (hsel : (selectLine lines).1 = some s) :
    ((sendMessageAuto env now lines req).reply.code ≠ some 200 ∧
        (sendMessageAuto env now lines req).lines = lines) ∨
      ∃ recipient before msg,
        sendMessageAuto env now lines req = deliver env now lines s req recipient before msg := by
  unfold sendMessageAuto
  split
  · left; simp [Reply.code, StatusBadRequest]
  · split
    · left; simp [Reply.code, StatusBadRequest]
    · simp only [hsel]
      cases hjid : parseJID req.To with
      | error e => left; simp [Reply.code, StatusBadRequest]
      | ok recipient =>
        simp only
        split
        · cases hres : (createMediaMessage env s.Client req).result with
          | error e => left; simp [Reply.code, StatusInternalServerError]
          | ok msg => right; exact ⟨recipient, _, msg, rfl⟩
        · right; exact ⟨recipient, _, _, rfl⟩

theorem sendMessageAuto_ok (env : Env) (now : Time) (lines : List Line)
    (req : MessageRequest) (s : Line) (hsel : (selectLine lines).1 = some s)
    (h : (sendMessageAuto env now lines req).reply.code = some 200) :
    (sendMessageAuto env now lines req).reply = .sent s.ID ∧
      (sendMessageAuto env now lines req).lines = setLastUsed lines s.ID now := by
  rcases sendMessageAuto_cases env now lines req s hsel with ⟨hne, _⟩ | ⟨r, before, msg, heq⟩
  · exact absurd h hne
  · rw [heq] at h ⊢
    exact deliver_ok _ _ _ _ _ _ _ _ h

theorem isCandidate_stamp (l : Line) (now : Time) :
    isCandidate { l with LastUsed := now } = isCandidate l := rfl

theorem mem_setLastUsed (lines : List Line) (id : String) (now : Time) (x : Line) :
    x ∈ setLastUsed lines id now ↔
      ∃ l ∈ lines, x = if l.ID = id then { l with LastUsed := now } else l := by
  simp only [setLastUsed, List.mem_map]
  constructor
  · rintro ⟨l, hl, rfl⟩; exact ⟨l, hl, rfl⟩
  · rintro ⟨l, hl, rfl⟩; exact ⟨l, hl, rfl⟩

theorem lookupLine_setLastUsed (lines : List Line) (id : String) (now : Time) (k : String) :
    lookupLine (setLastUsed lines id now) k =
      (lookupLine lines k).map fun l => if l.ID = id then { l with LastUsed := now } else l := by
  unfold lookupLine setLastUsed
  rw [List.find?_map]
  congr 1
  congr 1
  funext l
  simp only [Function.comp]
  split <;> rfl

theorem lookupLine_of_mem (lines : List Line) (hnodup : (lines.map (·.ID)).Nodup)
    (l : Line) (hl : l ∈ lines) : lookupLine lines l.ID = some l := by
  induction lines with
  | nil => simp at hl
  | cons x xs ih =>
    simp only [List.map_cons, List.nodup_cons, List.mem_map, not_exists, not_and] at hnodup
    simp only [lookupLine, List.find?_cons]
    rcases List.mem_cons.mp hl with h | h
    · subst h; simp
    · have hne : x.ID ≠ l.ID := fun he => hnodup.1 l h he.symm
      have : (x.ID == l.ID) = false := by simpa using hne
      simp only [this]
      exact ih hnodup.2 h

theorem id_injOn (lines : List Line) (hnodup : (lines.map (·.ID)).Nodup) (x y : Line)
    (hx : x ∈ lines) (hy : y ∈ lines) (h : x.ID = y.ID) : x = y :=
  List.inj_on_of_nodup_map hnodup hx hy h

/-- C3. Rotation: in a registry (distinct ids) whose candidates are exactly the
three lines `a`, `b`, `c` with `LastUsed` t1 < t2 < t3, a send-auto answered 200
at a time after t3 went out on `a`; afterwards `a` carries `LastUsed = now`,
every other line is as before, and a subsequent send-auto, for any order of
iteration, selects `b`. -/
theorem sendMessageAuto_rotation (env : Env) (now : Time) (order : List Line)
    (req : MessageRequest) (a b c : Line)
    (hnodup : (order.map (·.ID)).Nodup)
    (ha : a ∈ order) (hb : b ∈ order) (hc : c ∈ order)
    (hcands : ∀ l ∈ order,
      (l.Available = true ∧ l.Status = "connected" ∧ l.Active = true) ↔ (l = a ∨ l = b ∨ l = c))
    (hab : a.LastUsed < b.LastUsed) (hbc : b.LastUsed < c.LastUsed) (hnow : c.LastUsed < now)
    (hok : (sendMessageAuto env now order req).reply.code = some 200) :
    (selectLine order).1 = some a ∧
    (sendMessageAuto env now order req).reply = .sent a.ID ∧
    lookupLine (sendMessageAuto env now order req).lines a.ID =
      some { a with LastUsed := now } ∧
    lookupLine (sendMessageAuto env now order req).lines b.ID = some b ∧
    lookupLine (sendMessageAuto env now order req).lines c.ID = some c ∧
    (∀ l ∈ order, l.ID ≠ a.ID →
      lookupLine (sendMessageAuto env now order req).lines l.ID = some l) ∧
    (sendMessageAuto env now order req).lines.map (·.ID) = order.map (·.ID) ∧
    ∀ next : List Line, next.Perm (sendMessageAuto env now order req).lines →
      (selectLine next).1 = some b ∧
      ∀ (env₂ : Env) (now₂ : Time) (req₂ : MessageRequest),
        (sendMessageAuto env₂ now₂ next req₂).reply.code = some 200 →
          (sendMessageAuto env₂ now₂ next req₂).reply = .sent b.ID := by
  have hcand : ∀ l ∈ order, isCandidate l = true ↔ (l = a ∨ l = b ∨ l = c) :=
    fun l hl => (isCandidate_iff l).trans (hcands l hl)
  have hca : isCandidate a = true := (hcand a ha).mpr (Or.inl rfl)
  have hcb : isCandidate b = true := (hcand b hb).mpr (Or.inr (Or.inl rfl))
  have hac : a.LastUsed < c.LastUsed := lt_trans hab hbc
  have hsel : (selectLine order).1 = some a := by
    cases h : (selectLine order).1 with
    | none =>
      rw [selectLine_none_iff] at h
      rw [h a ha] at hca
      exact absurd hca (by simp)
    | some s =>
      obtain ⟨hin, hsc, hmin⟩ := selectLine_some order s h
      have hle := hmin a ha hca
      rcases (hcand s hin).mp hsc with rfl | rfl | rfl
      · rfl
      · exact absurd hle (not_le.mpr hab)
      · exact absurd hle (not_le.mpr hac)
  obtain ⟨hreply, hlines⟩ := sendMessageAuto_ok env now order req a hsel hok
  have hbid : b.ID ≠ a.ID := by
    intro h
    have := id_injOn order hnodup b a hb ha h
    rw [this] at hab
    exact lt_irrefl _ hab
  have hcid : c.ID ≠ a.ID := by
    intro h
    have := id_injOn order hnodup c a hc ha h
    rw [this] at hac
    exact lt_irrefl _ hac
  have hother : ∀ l ∈ order, l.ID ≠ a.ID →
      lookupLine (sendMessageAuto env now order req).lines l.ID = some l := by
    intro l hl hne
    rw [hlines, lookupLine_setLastUsed, lookupLine_of_mem order hnodup l hl]
    simp [hne]
  refine ⟨hsel, hreply, ?_, hother b hb hbid, hother c hc hcid, hother, ?_, ?_⟩
  · rw [hlines, lookupLine_setLastUsed, lookupLine_of_mem order hnodup a ha]
    simp
  · rw [hlines, setLastUsed, List.map_map]
    apply List.map_congr_left
    intro l _
    simp only [Function.comp]
    split <;> rfl
  · intro next hnext
    have hmem : ∀ x, x ∈ next ↔
        ∃ l ∈ order, x = if l.ID = a.ID then { l with LastUsed := now } else l := by
      intro x
      rw [hnext.mem_iff, hlines, mem_setLastUsed]
    have hbnext : b ∈ next := (hmem b).mpr ⟨b, hb, by simp [hbid]⟩
    have hselb : (selectLine next).1 = some b := by
      cases h : (selectLine next).1 with
      | none =>
        rw [selectLine_none_iff] at h
        rw [h b hbnext] at hcb
        exact absurd hcb (by simp)
      | some s =>
        obtain ⟨hin, hsc, hmin⟩ := selectLine_some next s h
        have hle := hmin b hbnext hcb
        obtain ⟨l, hl, hsl⟩ := (hmem s).mp hin
        have hlc : isCandidate l = true := by
          rw [hsl] at hsc
          split at hsc
          · exact hsc
          · exact hsc
        rcases (hcand l hl).mp hlc with rfl | rfl | rfl
        · rw [hsl] at hle
          simp only [if_true] at hle
          exact absurd (lt_of_lt_of_le (lt_trans hbc hnow) hle) (lt_irrefl _)
        · rw [hsl]; simp [hbid]
        · rw [hsl] at hle
          simp only [hcid, if_false] at hle
          exact absurd hle (not_le.mpr hbc)
    refine ⟨hselb, ?_⟩
    intro env₂ now₂ req₂ h200
    exact (sendMessageAuto_ok env₂ now₂ next req₂ b hselb h200).1

/-- Witness of C3 on `sampleRegistry`, sending at time 100. -/
theorem sendMessageAuto_rotation_witness :
    (sampleRegistry.map (·.ID)).Nodup ∧
      (sendMessageAuto sampleEnv 100 sampleRegistry sampleText).reply.code = some 200 ∧
      (selectLine sampleRegistry).1 = some (sampleLine "line_1" 1 10) ∧
      lookupLine (sendMessageAuto sampleEnv 100 sampleRegistry sampleText).lines "line_1" =
        some (sampleLine "line_1" 1 100) ∧
      ∀ next : List Line,
        next.Perm (sendMessageAuto sampleEnv 100 sampleRegistry sampleText).lines →
          (selectLine next).1 = some (sampleLine "line_2" 2 20) :=
  have h := sendMessageAuto_rotation sampleEnv 100 sampleRegistry sampleText
    (sampleLine "line_1" 1 10) (sampleLine "line_2" 2 20) (sampleLine "line_3" 3 30)
    (by decide) (by decide) (by decide) (by decide) (by decide) (by decide) (by decide)
    (by decide) (by decide)
  ⟨by decide, by decide, h.1, h.2.2.1, fun next hnext => (h.2.2.2.2.2.2.2 next hnext).1⟩

/-! ## Direct send -/

theorem lookupLine_eq_none (lines : List Line) (id : String) :
    lookupLine lines id = none ↔ ∀ l ∈ lines, l.ID ≠ id := by
  simp [lookupLine, List.find?_eq_none]

/-- C4. Direct send gating: for a request with non-empty `From` and `To`, an id
that is no key of the registry is answered 404, and a registered line whose
`Available` flag agrees with `Status = "connected" ∧ Active` and that is not
connected or not active is answered 503; in both cases nothing is uploaded or
sent and the registry (every `LastUsed` included) is unchanged. -/
theorem sendMessage_gating (env : Env) (now : Time) (lines : List Line)
    (req : MessageRequest) (hfrom : req.From ≠ "") (hto : req.To ≠ "") :
    ((∀ l ∈ lines, l.ID ≠ req.From) →
      (sendMessage env now lines req).reply = .error 404 "Línea no encontrada" ∧
      (sendMessage env now lines req).effects = [] ∧
      (sendMessage env now lines req).lines = lines) ∧
    (∀ line, lookupLine lines req.From = some line →
      (line.Available = true ↔ (line.Status = "connected" ∧ line.Active = true)) →
      (line.Status ≠ "connected" ∨ line.Active = false) →
      (sendMessage env now lines req).reply = .error 503 "Línea no disponible" ∧
      (sendMessage env now lines req).effects = [] ∧
      (sendMessage env now lines req).lines = lines) := by
  have h0 : (req.From == "" || req.To == "") = false := by
    simp [hfrom, hto]
  constructor
  · intro hkey
    have hnone := (lookupLine_eq_none lines req.From).mpr hkey
    have heq : sendMessage env now lines req =
        ⟨lines, [], .error StatusNotFound "Línea no encontrada"⟩ := by
      unfold sendMessage
      simp only [h0, hnone, Bool.false_eq_true, if_false]
    rw [heq]
    exact ⟨rfl, rfl, rfl⟩
  · intro line hline hinv hdown
    have hgate : (!line.Available || line.Status != "connected") = true := by
      rcases hdown with h | h
      · simp [h]
      · have : line.Available = false := by
          cases hav : line.Available with
          | false => rfl
          | true =>
            have := (hinv.mp hav).2
            rw [h] at this
            exact absurd this (by simp)
        simp [this]
    have heq : sendMessage env now lines req =
        ⟨lines, [], .error StatusServiceUnavailable "Línea no disponible"⟩ := by
      unfold sendMessage
      simp only [h0, hline, hgate, Bool.false_eq_true, if_false, if_true]
    rw [heq]
    exact ⟨rfl, rfl, rfl⟩

/-- Witness of C4: a request naming the paused line of `sampleRegistry`. -/
theorem sendMessage_gating_witness :
    (sendMessage sampleEnv 100 sampleRegistry { sampleText with From := "line_4" }).reply =
        .error 503 "Línea no disponible" ∧
      (sendMessage sampleEnv 100 sampleRegistry { sampleText with From := "line_9" }).reply =
        .error 404 "Línea no encontrada" :=
  ⟨((sendMessage_gating sampleEnv 100 sampleRegistry { sampleText with From := "line_4" }
      (by decide) (by decide)).2 pausedLine (by decide) (by decide) (by decide)).1,
    ((sendMessage_gating sampleEnv 100 sampleRegistry { sampleText with From := "line_9" }
      (by decide) (by decide)).1 (by decide)).1⟩

/-! ## Recipient validation -/

theorem utf8Size_of_le_nine (c : Char) (h : c ≤ '9') : c.utf8Size = 1 := by
  have h' : c.val ≤ 57 := h
  unfold Char.utf8Size
  have : c.val ≤ 127 := by
    have : c.val.toNat ≤ 57 := h'
    show c.val.toNat ≤ 127
    omega
  simp [this]

theorem utf8Len_digits (cs : List Char) (h : ∀ c ∈ cs, isAsciiDigit c = true) :
    String.utf8Len cs = cs.length := by
  induction cs with
  | nil => rfl
  | cons c cs ih =>
    have hc : c ≤ '9' := by
      have := h c (by simp)
      simp only [isAsciiDigit, decide_eq_true_eq] at this
      exact this.2
    rw [String.utf8Len_cons, ih (fun d hd => h d (List.mem_cons_of_mem _ hd)),
      utf8Size_of_le_nine c hc, List.length_cons]

theorem foldl_digits (cs : List Char) (acc : String) :
    cs.foldl (fun acc c => if '0' ≤ c ∧ c ≤ '9' then acc ++ String.singleton c else acc) acc =
      ⟨acc.data ++ cs.filter isAsciiDigit⟩ := by
  induction cs generalizing acc with
  | nil => simp
  | cons c cs ih =>
    rw [List.foldl_cons, ih]
    by_cases hc : '0' ≤ c ∧ c ≤ '9'
    · have : isAsciiDigit c = true := by simp [isAsciiDigit, hc]
      simp [hc, this, String.singleton]
    · have : isAsciiDigit c = false := by simp [isAsciiDigit, hc]
      simp [hc, this]

theorem cleanPhone_eq (phone : String) :
    cleanPhone phone = ⟨phone.data.filter isAsciiDigit⟩ := by
  unfold cleanPhone
  rw [foldl_digits]
  rfl

theorem cleanPhone_byteSize (phone : String) :
    (cleanPhone phone).utf8ByteSize = (phone.data.filter isAsciiDigit).length := by
  rw [cleanPhone_eq, String.utf8ByteSize_mk]
  exact utf8Len_digits _ fun c hc => (List.mem_filter.mp hc).2

/-- C5. `parseJID` succeeds exactly on the strings with at least 10 ASCII digits;
the identifier returned has as user part the digits of the input in their
original order, all other characters removed, on the default user server; with
fewer than 10 digits the result is an error. -/
theorem parseJID_digits (phone : String) :
    ((∃ jid, parseJID phone = .ok jid) ↔ 10 ≤ (phone.data.filter isAsciiDigit).length) ∧
    (∀ jid, parseJID phone = .ok jid →
      jid.User.data = phone.data.filter isAsciiDigit ∧ jid.Server = DefaultUserServer) ∧
    ((phone.data.filter isAsciiDigit).length < 10 → ∃ e, parseJID phone = .error e) := by
  unfold parseJID
  rw [cleanPhone_byteSize]
  by_cases h : (phone.data.filter isAsciiDigit).length < 10
  · simp only [h, if_true]
    refine ⟨?_, ?_, ?_⟩
    · constructor
      · rintro ⟨jid, hj⟩; cases hj
      · intro h10; omega
    · intro jid hj; cases hj
    · intro _; exact ⟨_, rfl⟩
  · simp only [h, if_false]
    refine ⟨?_, ?_, ?_⟩
    · constructor
      · intro _; omega
      · intro _; exact ⟨_, rfl⟩
    · intro jid hj
      cases hj
      simp [NewJID, cleanPhone_eq]
    · intro h10; exact h10.elim

theorem isAsciiDigit_iff (c : Char) :
    isAsciiDigit c = true ↔ 48 ≤ c.toNat ∧ c.toNat ≤ 57 := by
  simp only [isAsciiDigit, decide_eq_true_eq]
  exact Iff.rfl

/-- Witness of C5: a formatted number with thirteen digits, and a short one. -/
theorem parseJID_digits_witness :
    (∃ jid, parseJID "+54 9 (11) 5555-0000" = .ok jid) ∧
      (∃ e, parseJID "555-0000" = .error e) ∧
      parseJID "+54 9 (11) 5555-0000" = .ok ⟨"5491155550000", "s.whatsapp.net"⟩ :=
  ⟨(parseJID_digits "+54 9 (11) 5555-0000").1.mpr (by decide),
    (parseJID_digits "555-0000").2.2 (by decide), by rfl⟩

/-! ## Data-URL head -/

theorem indexOfChar_append_of_not_mem (c : Char) (xs ys : List Char) (h : c ∉ xs) :
    indexOfChar c (xs ++ ys) = (indexOfChar c ys).map (· + xs.length) := by
  induction xs with
  | nil => simp
  | cons x xs ih =>
    have hx : x ≠ c := fun e => h (by simp [e])
    have hxs : c ∉ xs := fun e => h (List.mem_cons_of_mem _ e)
    rw [List.cons_append]
    simp only [indexOfChar, hx, if_false]
    rw [ih hxs]
    cases indexOfChar c ys with
    | none => rfl
    | some i => simp [Nat.add_assoc]

theorem indexOfChar_cons_self (c : Char) (ys : List Char) :
    indexOfChar c (c :: ys) = some 0 := by
  simp [indexOfChar]

theorem extractMime_of_head (M : List Char) (hM : M ≠ []) (hsemi : ';' ∉ M)
    (pfx : String)
    (hpfx : pfx.data = 'd' :: 'a' :: 't' :: 'a' :: ':' :: (M ++ ";base64".data)) :
    extractMime pfx "" = ⟨M⟩ := by
  have hlen : pfx.utf8ByteSize > 5 := by
    have : pfx = ⟨pfx.data⟩ := rfl
    rw [this, hpfx, String.utf8ByteSize_mk]
    have hpos : 0 < String.utf8Len M := by
      rcases Nat.eq_zero_or_pos (String.utf8Len M) with h | h
      · exact absurd (String.utf8Len_eq_zero.mp h) hM
      · exact h
    simp only [String.utf8Len_cons, String.utf8Len_append]
    have h1 := Char.utf8Size_pos 'd'
    have h2 := Char.utf8Size_pos 'a'
    have h3 := Char.utf8Size_pos 't'
    have h4 := Char.utf8Size_pos ':'
    omega
  have hparts : (sliceFrom pfx 5).data = M ++ ';' :: "base64".data := by
    simp only [sliceFrom, hpfx, List.drop_succ_cons, List.drop_zero]
  have hidx : indexOfChar ';' (sliceFrom pfx 5).data = some M.length := by
    rw [hparts, indexOfChar_append_of_not_mem _ _ _ hsemi, indexOfChar_cons_self]
    simp
  have hMpos : 0 < M.length := List.length_pos.mpr hM
  unfold extractMime
  simp only [beq_self_eq_true, if_true, hlen, hidx, hMpos]
  simp only [sliceTo, hparts, List.take_left']

theorem stripDataURL_of_head (req : MessageRequest) (M P : List Char) (hM : M ≠ [])
    (hsemi : ';' ∉ M) (hcomma : ',' ∉ M)
    (hdata : req.MediaData.data =
      'd' :: 'a' :: 't' :: 'a' :: ':' :: (M ++ (";base64".data ++ ',' :: P))) :
    stripDataURL req = (⟨P⟩, if req.MimeType = "" then ⟨M⟩ else req.MimeType) := by
  have hlen : req.MediaData.utf8ByteSize > 5 := by
    have : req.MediaData = ⟨req.MediaData.data⟩ := rfl
    rw [this, hdata, String.utf8ByteSize_mk]
    have hpos : 0 < String.utf8Len M := by
      rcases Nat.eq_zero_or_pos (String.utf8Len M) with h | h
      · exact absurd (String.utf8Len_eq_zero.mp h) hM
      · exact h
    simp only [String.utf8Len_cons, String.utf8Len_append]
    have h1 := Char.utf8Size_pos 'd'
    have h2 := Char.utf8Size_pos 'a'
    have h3 := Char.utf8Size_pos 't'
    have h4 := Char.utf8Size_pos ':'
    omega
  have hhead : sliceTo req.MediaData 5 = "data:" := by
    simp only [sliceTo, hdata, List.take_succ_cons, List.take_zero]
  have hsplit : req.MediaData.data =
      ('d' :: 'a' :: 't' :: 'a' :: ':' :: (M ++ ";base64".data)) ++ ',' :: P := by
    rw [hdata]; simp
  have hnot : ',' ∉ 'd' :: 'a' :: 't' :: 'a' :: ':' :: (M ++ ";base64".data) := by
    simp only [List.mem_cons, List.mem_append, not_or]
    refine ⟨by decide, by decide, by decide, by decide, by decide, hcomma, ?_⟩
    decide
  have hidx : indexOfChar ',' req.MediaData.data =
      some ('d' :: 'a' :: 't' :: 'a' :: ':' :: (M ++ ";base64".data)).length := by
    rw [hsplit, indexOfChar_append_of_not_mem _ _ _ hnot, indexOfChar_cons_self]
    simp
  have hpos : 0 < ('d' :: 'a' :: 't' :: 'a' :: ':' :: (M ++ ";base64".data)).length := by
    simp
  have hpfx : (sliceTo req.MediaData
      ('d' :: 'a' :: 't' :: 'a' :: ':' :: (M ++ ";base64".data)).length).data =
        'd' :: 'a' :: 't' :: 'a' :: ':' :: (M ++ ";base64".data) := by
    simp only [sliceTo]
    rw [hsplit, List.take_left']
    rfl
  have hrest : sliceFrom req.MediaData
      (('d' :: 'a' :: 't' :: 'a' :: ':' :: (M ++ ";base64".data)).length + 1) = ⟨P⟩ := by
    simp only [sliceFrom]
    rw [hsplit, List.drop_append_eq_append_drop]
    simp
  unfold stripDataURL
  simp only [hlen, hhead, beq_self_eq_true, decide_True, Bool.and_self, if_true, hidx, hpos,
    hrest]
  by_cases hdecl : req.MimeType = ""
  · rw [hdecl, extractMime_of_head M hM hsemi _ hpfx]
    simp
  · simp only [hdecl, if_false]
    unfold extractMime
    have : (req.MimeType == "") = false := by simpa using hdecl
    simp [this]

theorem resolvedMime_of_strip (req : MessageRequest) (mime : String) (hne : mime ≠ "")
    (h : (stripDataURL req).2 = mime) : resolvedMime req = mime := by
  have hb : (mime == "") = false := by simpa using hne
  simp [resolvedMime, h, defaultMime, hb]

theorem createMediaMessage_congr_decoder (env : Env) (client : Option Client)
    (req : MessageRequest) (dec : String → Option Bytes)
    (h : dec (stripDataURL req).1 = env.base64Decode (stripDataURL req).1) :
    createMediaMessage { env with base64Decode := dec } client req =
      createMediaMessage env client req := by
  unfold createMediaMessage
  simp only [h]
  rfl

theorem stripDataURL_dataURL (req : MessageRequest) (m p : String)
    (hm : m ≠ "") (hsemi : ';' ∉ m.data) (hcomma : ',' ∉ m.data)
    (hdata : req.MediaData = "data:" ++ m ++ ";base64," ++ p) :
    (stripDataURL req).1 = p ∧
      (stripDataURL req).2 = (if req.MimeType = "" then m else req.MimeType) ∧
      resolvedMime req = (if req.MimeType = "" then m else req.MimeType) := by
  have hM : m.data ≠ [] := fun h => hm (String.ext h)
  have hlist : req.MediaData.data =
      'd' :: 'a' :: 't' :: 'a' :: ':' :: (m.data ++ (";base64".data ++ ',' :: p.data)) := by
    rw [hdata]
    simp only [String.data_append, List.append_assoc]
    rfl
  have hstrip := stripDataURL_of_head req m.data p.data hM hsemi hcomma hlist
  have h1 : (stripDataURL req).1 = p := by rw [hstrip]
  have h2 : (stripDataURL req).2 = (if req.MimeType = "" then m else req.MimeType) := by
    rw [hstrip]
  refine ⟨h1, h2, ?_⟩
  by_cases hdecl : req.MimeType = ""
  · rw [if_pos hdecl] at h2 ⊢
    exact resolvedMime_of_strip req m hm h2
  · rw [if_neg hdecl] at h2 ⊢
    exact resolvedMime_of_strip req _ hdecl h2

theorem processImage_result_mime (env : Env) (imageBytes : Bytes) (mimeType : String)
    (out : Bytes) (mime : String)
    (h : (processImageForWhatsApp env imageBytes mimeType).result = .ok (out, mime)) :
    mime = "image/jpeg" := by
  unfold processImageForWhatsApp at h
  cases hdec : env.imageDecode imageBytes with
  | none => simp [hdec] at h
  | some img =>
    simp only [hdec] at h
    cases h1 : env.jpegEncode (finalImage img) (firstQuality imageBytes) with
    | none => simp [h1] at h
    | some first =>
      simp only [h1] at h
      split at h
      · cases h2 : env.jpegEncode (finalImage img) 50 with
        | none => simp [h2] at h
        | some second =>
          simp only [h2, Except.ok.injEq, Prod.mk.injEq] at h
          exact h.2.symm
      · simp only [Except.ok.injEq, Prod.mk.injEq] at h
        exact h.2.symm

theorem uploadAndBuild_image (env : Env) (client : Option Client) (req : MessageRequest)
    (before : List Effect) (mediaBytes : Bytes) (mimeType : String) (msg : Message)
    (himg : req.MediaType = "image")
    (h : (uploadAndBuild env client req before mediaBytes mimeType).result = .ok msg) :
    ∃ uploaded, msg = .ImageMessage req.Caption uploaded mimeType := by
  unfold uploadAndBuild at h
  have hk : whatsappMediaType req.MediaType = some .MediaImage := by
    simp [whatsappMediaType, himg]
  simp only [hk] at h
  cases hu : env.upload client mediaBytes .MediaImage with
  | none => simp [hu] at h
  | some uploaded =>
    simp only [hu, buildMessage, himg, beq_self_eq_true, if_true, Except.ok.injEq] at h
    exact ⟨uploaded, h.symm⟩

/-- C6, as the code has it.  For `media_data = "data:" ++ m ++ ";base64," ++ p`
with `m` non-empty and free of `;` and `,`, the string handed to the Base64
decoder is exactly `p`: a decode error on `p` is the result, and the bytes `p`
decodes to are the bytes uploaded.  The MIME type taken is `m` when none was
declared and the declared one otherwise, and it is the type the envelope
carries for audio, voice, video and document.  For image the bytes are
re-encoded and the envelope carries `image/jpeg`. -/
theorem createMediaMessage_dataURL (env : Env) (client : Option Client)
    (req : MessageRequest) (m p : String)
    (hm : m ≠ "") (hsemi : ';' ∉ m.data) (hcomma : ',' ∉ m.data)
    (hdata : req.MediaData = "data:" ++ m ++ ";base64," ++ p) :
    (stripDataURL req).1 = p ∧
    resolvedMime req = (if req.MimeType = "" then m else req.MimeType) ∧
    (env.base64Decode p = none →
      createMediaMessage env client req = ⟨[], .error (.base64 p.utf8ByteSize)⟩) ∧
    (∀ (bytes : Bytes) (kind : WaMediaType) (uploaded : Uploaded),
      env.base64Decode p = some bytes → bytes.length ≤ maxSize req.MediaType →
      req.MediaType ≠ "image" → whatsappMediaType req.MediaType = some kind →
      env.upload client bytes kind = some uploaded →
        (createMediaMessage env client req).effects = [.upload client bytes kind] ∧
        (req.MediaType = "audio" → (createMediaMessage env client req).result =
          .ok (.AudioMessage uploaded (if req.MimeType = "" then m else req.MimeType) false)) ∧
        (req.MediaType = "voice" → (createMediaMessage env client req).result =
          .ok (.AudioMessage uploaded (if req.MimeType = "" then m else req.MimeType) true)) ∧
        (req.MediaType = "video" → (createMediaMessage env client req).result =
          .ok (.VideoMessage req.Caption uploaded
            (if req.MimeType = "" then m else req.MimeType))) ∧
        (req.MediaType = "document" → (createMediaMessage env client req).result =
          .ok (.DocumentMessage uploaded (if req.MimeType = "" then m else req.MimeType)
            req.FileName))) ∧
    (req.MediaType = "image" →
      ∀ msg, (createMediaMessage env client req).result = .ok msg →
        ∃ uploaded, msg = .ImageMessage req.Caption uploaded "image/jpeg") := by
  obtain ⟨h1, _, h3⟩ := stripDataURL_dataURL req m p hm hsemi hcomma hdata
  refine ⟨h1, h3, ?_, ?_, ?_⟩
  · intro hnone
    unfold createMediaMessage
    simp only [h1, hnone]
  · intro bytes kind uploaded hdec hle hnot hkind hup
    have himg : (req.MediaType == "image") = false := by simpa using hnot
    have hres : createMediaMessage env client req =
        ⟨[.upload client bytes kind], buildMessage req uploaded (resolvedMime req)⟩ := by
      unfold createMediaMessage
      simp only [h1, hdec, not_lt.mpr hle, if_false, himg, Bool.false_eq_true]
      unfold uploadAndBuild
      simp only [hkind, hup, List.nil_append]
    rw [hres, h3]
    refine ⟨rfl, ?_, ?_, ?_, ?_⟩ <;> intro hcat <;> simp [buildMessage, hcat]
  · intro himg msg hmsg
    unfold createMediaMessage at hmsg
    cases hdec : env.base64Decode (stripDataURL req).1 with
    | none => simp [hdec] at hmsg
    | some bytes =>
      simp only [hdec] at hmsg
      split at hmsg
      · simp at hmsg
      · simp only [himg, beq_self_eq_true, if_true] at hmsg
        cases hres : (processImageForWhatsApp env bytes (resolvedMime req)).result with
        | error e => simp [hres] at hmsg
        | ok r =>
          obtain ⟨imageBytes, imageMime⟩ := r
          simp only [hres] at hmsg
          have hjpeg := processImage_result_mime env bytes (resolvedMime req) imageBytes
            imageMime hres
          rw [hjpeg] at hmsg
          exact uploadAndBuild_image env client req _ imageBytes "image/jpeg" msg himg hmsg

/-- Witness of the amended C6: an audio request carrying the data URL of an MP3
with no declared type. -/
theorem createMediaMessage_dataURL_witness :
    (stripDataURL audioDataURL).1 = "SUQzBAAA" ∧
      (createMediaMessage sampleEnv none audioDataURL).result =
        .ok (.AudioMessage ⟨"", "", [], [], [], 0⟩ "audio/mpeg" false) :=
  have h := createMediaMessage_dataURL sampleEnv none audioDataURL "audio/mpeg" "SUQzBAAA"
    (by decide) (by decide) (by decide) (by decide)
  ⟨h.1, (h.2.2.2.1 [] .MediaAudio ⟨"", "", [], [], [], 0⟩ rfl (by decide) (by decide)
    (by decide) rfl).2.1 rfl⟩

/-- C6 fails as stated: an image request with no declared type that carries
`data:image/png;base64,iVBORw0KGgo=` is sent with the MIME type `image/jpeg`,
not `image/png`; and a declared `image/png` is not kept either. -/
theorem dataURL_image_sent_as_jpeg :
    sampleDataURL.MimeType = "" ∧
      sampleDataURL.MediaData = "data:" ++ "image/png" ++ ";base64," ++ "iVBORw0KGgo=" ∧
      resolvedMime sampleDataURL = "image/png" ∧
      (createMediaMessage sampleEnv none sampleDataURL).result =
        .ok (.ImageMessage "" ⟨"", "", [], [], [], 0⟩ "image/jpeg") ∧
      (createMediaMessage sampleEnv none declaredDataURL).result =
        .ok (.ImageMessage "" ⟨"", "", [], [], [], 0⟩ "image/jpeg") := by
  refine ⟨by decide, by decide, by decide, by rfl, by rfl⟩

/-! ## Category defaults and size ceilings -/

/-- C7, as the code has it: with no declared MIME type and none taken from a
data-URL head, the MIME type assigned is `image/jpeg` for image,
`audio/ogg; codecs=opus` (with a space after the semicolon) for audio and for
voice, `video/mp4` for video and `application/pdf` for document. -/
theorem createMediaMessage_default_mime (req : MessageRequest)
    (hdecl : req.MimeType = "") (hextr : (stripDataURL req).2 = "") :
    (req.MediaType = "image" → resolvedMime req = "image/jpeg") ∧
    (req.MediaType = "audio" → resolvedMime req = "audio/ogg; codecs=opus") ∧
    (req.MediaType = "voice" → resolvedMime req = "audio/ogg; codecs=opus") ∧
    (req.MediaType = "video" → resolvedMime req = "video/mp4") ∧
    (req.MediaType = "document" → resolvedMime req = "application/pdf") := by
  refine ⟨?_, ?_, ?_, ?_, ?_⟩ <;> intro h <;>
    simp [resolvedMime, hextr, hdecl, defaultMime, h]

/-- Witness of the amended C7: a voice note with a bare payload. -/
theorem createMediaMessage_default_mime_witness :
    resolvedMime (sampleMedia "voice") = "audio/ogg; codecs=opus" :=
  (createMediaMessage_default_mime (sampleMedia "voice") (by decide) (by decide)).2.2.1 rfl

/-- C7 fails as stated: for an audio request with no declared type and a bare
payload the assigned type is `audio/ogg; codecs=opus`, which is not the string
`audio/ogg;codecs=opus`, and that is the type the envelope carries. -/
theorem default_mime_audio_has_space :
    (sampleMedia "audio").MimeType = "" ∧
      (stripDataURL (sampleMedia "audio")).2 = "" ∧
      resolvedMime (sampleMedia "audio") = "audio/ogg; codecs=opus" ∧
      resolvedMime (sampleMedia "audio") ≠ "audio/ogg;codecs=opus" ∧
      resolvedMime (sampleMedia "voice") ≠ "audio/ogg;codecs=opus" ∧
      (createMediaMessage sampleEnv none (sampleMedia "audio")).result =
        .ok (.AudioMessage ⟨"", "", [], [], [], 0⟩ "audio/ogg; codecs=opus" false) := by
  refine ⟨by decide, by decide, by decide, by decide, by decide, by rfl⟩

theorem uploadAndBuild_not_tooLarge (env : Env) (client : Option Client)
    (req : MessageRequest) (before : List Effect) (mediaBytes : Bytes) (mimeType : String)
    (n k : Nat) :
    (uploadAndBuild env client req before mediaBytes mimeType).result ≠ .error (.tooLarge n k) := by
  unfold uploadAndBuild
  cases hk : whatsappMediaType req.MediaType with
  | none => simp
  | some kind =>
    cases hu : env.upload client mediaBytes kind with
    | none => simp [hu]
    | some uploaded =>
      simp only [hu, buildMessage]
      repeat' split
      all_goals simp

theorem createMediaMessage_within (env : Env) (client : Option Client) (req : MessageRequest)
    (bytes : Bytes) (hdec : env.base64Decode (stripDataURL req).1 = some bytes)
    (hle : bytes.length ≤ maxSize req.MediaType) (n k : Nat) :
    (createMediaMessage env client req).result ≠ .error (.tooLarge n k) := by
  unfold createMediaMessage
  simp only [hdec, not_lt.mpr hle, if_false]
  split
  · cases hres : (processImageForWhatsApp env bytes (resolvedMime req)).result with
    | error e => simp
    | ok r => exact uploadAndBuild_not_tooLarge _ _ _ _ _ _ _ _
  · exact uploadAndBuild_not_tooLarge _ _ _ _ _ _ _ _

theorem createMediaMessage_over (env : Env) (client : Option Client) (req : MessageRequest)
    (bytes : Bytes) (hdec : env.base64Decode (stripDataURL req).1 = some bytes)
    (hgt : maxSize req.MediaType < bytes.length) :
    createMediaMessage env client req =
      ⟨[], .error (.tooLarge bytes.length (maxSize req.MediaType))⟩ := by
  unfold createMediaMessage
  simp only [hdec, hgt, if_true]

/-- C8. Size ceiling: for each of the five categories and a payload that decodes
to `n` bytes, `createMediaMessage` fails with the too-large error exactly when
`n` exceeds the ceiling (5 MiB for image, 16 MiB for audio, voice and video,
100 MiB for document), and then nothing is encoded or uploaded; so `ceiling`
bytes pass the check and `ceiling + 1` bytes are rejected. -/
theorem createMediaMessage_size_ceiling (env : Env) (client : Option Client)
    (req : MessageRequest) (bytes : Bytes) (ceiling : Nat)
    (hcat : (req.MediaType = "image" ∧ ceiling = 5 * 1024 * 1024) ∨
      (req.MediaType = "audio" ∧ ceiling = 16 * 1024 * 1024) ∨
      (req.MediaType = "voice" ∧ ceiling = 16 * 1024 * 1024) ∨
      (req.MediaType = "video" ∧ ceiling = 16 * 1024 * 1024) ∨
      (req.MediaType = "document" ∧ ceiling = 100 * 1024 * 1024))
    (hdec : env.base64Decode (stripDataURL req).1 = some bytes) :
    ((∃ n k, (createMediaMessage env client req).result = .error (.tooLarge n k)) ↔
        ceiling < bytes.length) ∧
    (ceiling < bytes.length →
      (createMediaMessage env client req).result = .error (.tooLarge bytes.length ceiling) ∧
      (createMediaMessage env client req).effects = []) ∧
    (bytes.length = ceiling →
      ∀ n k, (createMediaMessage env client req).result ≠ .error (.tooLarge n k)) ∧
    (bytes.length = ceiling + 1 →
      (createMediaMessage env client req).result = .error (.tooLarge (ceiling + 1) ceiling)) := by
  have hmax : maxSize req.MediaType = ceiling := by
    rcases hcat with ⟨h, rfl⟩ | ⟨h, rfl⟩ | ⟨h, rfl⟩ | ⟨h, rfl⟩ | ⟨h, rfl⟩ <;>
      simp [maxSize, h]
  have hover : ceiling < bytes.length →
      (createMediaMessage env client req).result = .error (.tooLarge bytes.length ceiling) ∧
      (createMediaMessage env client req).effects = [] := by
    intro hgt
    rw [createMediaMessage_over env client req bytes hdec (by rw [hmax]; exact hgt), hmax]
    exact ⟨rfl, rfl⟩
  refine ⟨?_, hover, ?_, ?_⟩
  · constructor
    · rintro ⟨n, k, hres⟩
      by_contra hle
      exact createMediaMessage_within env client req bytes hdec
        (by rw [hmax]; exact not_lt.mp hle) n k hres
    · intro hgt
      exact ⟨_, _, (hover hgt).1⟩
  · intro heq n k
    exact createMediaMessage_within env client req bytes hdec (by rw [hmax, heq]) n k
  · intro heq
    have := (hover (by omega)).1
    rw [heq] at this
    exact this

/-- Witness of C8: an image payload of one byte more than 5 MiB. -/
theorem createMediaMessage_size_ceiling_witness :
    (createMediaMessage (sizedEnv (5 * 1024 * 1024 + 1)) none (sampleMedia "image")).result =
      .error (.tooLarge (5 * 1024 * 1024 + 1) (5 * 1024 * 1024)) :=
  (createMediaMessage_size_ceiling (sizedEnv (5 * 1024 * 1024 + 1)) none (sampleMedia "image")
    (List.replicate (5 * 1024 * 1024 + 1) 0) (5 * 1024 * 1024) (Or.inl ⟨rfl, rfl⟩) rfl).2.2.2
    (List.length_replicate _ _)

/-! ## Image normalisation -/

theorem processImage_first_encode (env : Env) (imageBytes : Bytes) (mimeType : String)
    (img : Image) (h : env.imageDecode imageBytes = some img) :
    (processImageForWhatsApp env imageBytes mimeType).effects.head? =
      some (.jpegEncode (finalImage img) (firstQuality imageBytes)) := by
  unfold processImageForWhatsApp
  simp only [h]
  cases h1 : env.jpegEncode (finalImage img) (firstQuality imageBytes) with
  | none => simp
  | some processedBytes =>
    simp only
    split
    · cases h2 : env.jpegEncode (finalImage img) 50 with
      | none => simp
      | some recompressed => simp
    · simp

/-- C9. Resize dimensions: a raster of width `w ≥ 1` and height `h ≥ 1` that fits
in 1280 × 1280 is encoded as it is; otherwise the raster encoded has dimensions
`(1280, ⌊h·1280/w⌋)` when `w > h` and `(⌊w·1280/h⌋, 1280)` when `w ≤ h`, the
shorter side being at most 1280; 2000 × 1000 becomes 1280 × 640 and 1000 × 2000
becomes 640 × 1280. -/
theorem processImage_dimensions (img : Image) (hw : 1 ≤ img.width) (hh : 1 ≤ img.height) :
    (∀ (env : Env) (imageBytes : Bytes) (mimeType : String),
      env.imageDecode imageBytes = some img →
        ∃ quality, (processImageForWhatsApp env imageBytes mimeType).effects.head? =
          some (.jpegEncode (finalImage img) quality)) ∧
    (img.width ≤ 1280 ∧ img.height ≤ 1280 → finalImage img = img) ∧
    (¬ (img.width ≤ 1280 ∧ img.height ≤ 1280) →
      (img.width > img.height →
        (finalImage img).width = 1280 ∧
        (finalImage img).height = img.height * 1280 / img.width ∧
        (finalImage img).height ≤ 1280) ∧
      (img.width ≤ img.height →
        (finalImage img).width = img.width * 1280 / img.height ∧
        (finalImage img).height = 1280 ∧
        (finalImage img).width ≤ 1280)) ∧
    (img.width = 2000 → img.height = 1000 →
      (finalImage img).width = 1280 ∧ (finalImage img).height = 640) ∧
    (img.width = 1000 → img.height = 2000 →
      (finalImage img).width = 640 ∧ (finalImage img).height = 1280) := by
  have hbig : ¬ (img.width ≤ 1280 ∧ img.height ≤ 1280) →
      finalImage img =
        resample img (newDimensions img.width img.height).1
          (newDimensions img.width img.height).2 := by
    intro h
    have : (decide (img.width > maxDimension) || decide (img.height > maxDimension)) = true := by
      simp only [maxDimension, Bool.or_eq_true, decide_eq_true_eq]
      omega
    simp only [finalImage, this, if_true]
  refine ⟨?_, ?_, ?_, ?_, ?_⟩
  · intro env imageBytes mimeType hdec
    exact ⟨_, processImage_first_encode env imageBytes mimeType img hdec⟩
  · rintro ⟨h1, h2⟩
    have : (decide (img.width > maxDimension) || decide (img.height > maxDimension)) = false := by
      simp only [maxDimension, Bool.or_eq_false_iff, decide_eq_false_iff_not]
      omega
    simp only [finalImage, this, Bool.false_eq_true, if_false]
  · intro h
    rw [hbig h]
    constructor
    · intro hgt
      have hdim : newDimensions img.width img.height =
          (maxDimension, img.height * maxDimension / img.width) := by
        simp [newDimensions, hgt]
      simp only [resample, hdim, maxDimension]
      refine ⟨trivial, trivial, ?_⟩
      apply Nat.div_le_of_le_mul
      nlinarith
    · intro hle
      have hdim : newDimensions img.width img.height =
          (img.width * maxDimension / img.height, maxDimension) := by
        simp [newDimensions, not_lt.mpr hle]
      simp only [resample, hdim, maxDimension]
      refine ⟨trivial, trivial, ?_⟩
      apply Nat.div_le_of_le_mul
      nlinarith
  · intro h1 h2
    rw [hbig (by omega)]
    simp [resample, newDimensions, maxDimension, h1, h2]
  · intro h1 h2
    rw [hbig (by omega)]
    simp [resample, newDimensions, maxDimension, h1, h2]

/-- Witness of C9: a 2000 × 1000 raster. -/
theorem processImage_dimensions_witness :
    (finalImage (blankImage 2000 1000)).width = 1280 ∧
      (finalImage (blankImage 2000 1000)).height = 640 :=
  (processImage_dimensions (blankImage 2000 1000) (by decide) (by decide)).2.2.2.1 rfl rfl

/-- C10. First-pass quality: the first encode of `processImageForWhatsApp` runs at
a quality fixed by the byte length `n` of the original image bytes alone: 60 for
`n > 500000`, 70 for `200000 < n ≤ 500000`, 75 for `n ≤ 200000`; a 600 KB source
(600000 or 614400 bytes) gets 60, whatever raster it decodes to. -/
theorem processImage_first_quality (env : Env) (imageBytes : Bytes) (mimeType : String)
    (img : Image) (hdec : env.imageDecode imageBytes = some img) :
    (∃ quality,
      (processImageForWhatsApp env imageBytes mimeType).effects.head? =
        some (.jpegEncode (finalImage img) quality) ∧
      (500000 < imageBytes.length → quality = 60) ∧
      (200000 < imageBytes.length ∧ imageBytes.length ≤ 500000 → quality = 70) ∧
      (imageBytes.length ≤ 200000 → quality = 75) ∧
      (imageBytes.length = 600000 ∨ imageBytes.length = 600 * 1024 → quality = 60) ∧
      ∀ (env₂ : Env) (imageBytes₂ : Bytes) (mimeType₂ : String) (img₂ : Image),
        env₂.imageDecode imageBytes₂ = some img₂ → imageBytes₂.length = imageBytes.length →
          (processImageForWhatsApp env₂ imageBytes₂ mimeType₂).effects.head? =
            some (.jpegEncode (finalImage img₂) quality)) := by
  refine ⟨firstQuality imageBytes,
    processImage_first_encode env imageBytes mimeType img hdec, ?_, ?_, ?_, ?_, ?_⟩
  · intro h; simp [firstQuality, h]
  · rintro ⟨h1, h2⟩; simp [firstQuality, not_lt.mpr h2, h1]
  · intro h
    have h1 : ¬ 500000 < imageBytes.length := by omega
    have h2 : ¬ 200000 < imageBytes.length := by omega
    simp [firstQuality, h1, h2]
  · intro h
    have : 500000 < imageBytes.length := by omega
    simp [firstQuality, this]
  · intro env₂ imageBytes₂ mimeType₂ img₂ hdec₂ hlen
    have : firstQuality imageBytes = firstQuality imageBytes₂ := by
      simp only [firstQuality, hlen]
    rw [this]
    exact processImage_first_encode env₂ imageBytes₂ mimeType₂ img₂ hdec₂

/-- Witness of C10: a source of 600000 bytes. -/
theorem processImage_first_quality_witness :
    ∃ quality,
      (processImageForWhatsApp sampleEnv (List.replicate 600000 0) "image/png").effects.head? =
        some (.jpegEncode (finalImage ⟨1, 1, fun _ _ => 0⟩) quality) ∧ quality = 60 :=
  match processImage_first_quality sampleEnv (List.replicate 600000 0) "image/png"
      ⟨1, 1, fun _ _ => 0⟩ rfl with
  | ⟨q, h, h60, _⟩ => ⟨q, h, h60 (by rw [List.length_replicate]; decide)⟩

/-! ## Recompression -/

/-- C11. Bounded recompression: once the raster is decoded and the first encode
has produced `first`, the encoder has been called exactly once if `first` has at
most 300000 bytes, and `first` is returned; otherwise it is called exactly once
more, at quality 50, and whatever that call produces is returned; every
successful return carries the MIME type `image/jpeg`, whatever type was
declared. -/
theorem processImage_bounded_recompression (env : Env) (imageBytes : Bytes)
    (mimeType : String) (img : Image) (first : Bytes)
    (hdec : env.imageDecode imageBytes = some img)
    (hfirst : env.jpegEncode (finalImage img) (firstQuality imageBytes) = some first) :
    (first.length ≤ 300000 →
      (processImageForWhatsApp env imageBytes mimeType).effects =
        [.jpegEncode (finalImage img) (firstQuality imageBytes)] ∧
      (processImageForWhatsApp env imageBytes mimeType).result = .ok (first, "image/jpeg")) ∧
    (300000 < first.length →
      (processImageForWhatsApp env imageBytes mimeType).effects =
        [.jpegEncode (finalImage img) (firstQuality imageBytes),
          .jpegEncode (finalImage img) 50] ∧
      ∀ second, env.jpegEncode (finalImage img) 50 = some second →
        (processImageForWhatsApp env imageBytes mimeType).result =
          .ok (second, "image/jpeg")) ∧
    (∀ out mime, (processImageForWhatsApp env imageBytes mimeType).result = .ok (out, mime) →
      mime = "image/jpeg") := by
  refine ⟨?_, ?_, ?_⟩
  · intro hle
    simp [processImageForWhatsApp, hdec, hfirst, not_lt.mpr hle]
  · intro hgt
    unfold processImageForWhatsApp
    simp only [hdec, hfirst, hgt, if_true]
    cases h2 : env.jpegEncode (finalImage img) 50 with
    | none => simp
    | some second => simp
  · intro out mime
    unfold processImageForWhatsApp
    simp only [hdec, hfirst]
    split
    · cases h2 : env.jpegEncode (finalImage img) 50 with
      | none => simp
      | some second =>
        simp only [Except.ok.injEq, Prod.mk.injEq, and_imp]
        intro _ h; exact h.symm
    · simp only [Except.ok.injEq, Prod.mk.injEq, and_imp]
      intro _ h; exact h.symm

/-- Witness of C11: an encoder whose output is empty, on a declared PNG. -/
theorem processImage_bounded_recompression_witness :
    (processImageForWhatsApp sampleEnv [1, 2, 3] "image/png").result =
      .ok ([], "image/jpeg") :=
  ((processImage_bounded_recompression sampleEnv [1, 2, 3] "image/png"
    ⟨1, 1, fun _ _ => 0⟩ [] rfl rfl).1 (by decide)).2

/-! ## Log truncation -/

set_option maxRecDepth 100000 in
/-- C12 at a text of 251 characters `é` (502 bytes): the row does not hold the
text but its first 250 characters followed by `...`, because the limit of 500
is applied to bytes. -/
theorem logMessage_truncates_bytes :
    accentedText.length = 251 ∧
      (utf8Bytes accentedText).length = 502 ∧
      (logMessage "line_1" "received" "a" "b" "text" accentedText false).messageText ≠
        utf8Bytes accentedText ∧
      (logMessage "line_1" "received" "a" "b" "text" accentedText false).messageText =
        utf8Bytes ⟨List.replicate 250 'é'⟩ ++ utf8Bytes "..." := by
  refine ⟨by decide, by decide, by decide, by decide⟩

/-! ## Line identifiers -/

theorem digitVal_digitChar (k : Nat) (h : k < 10) : digitVal (Nat.digitChar k) = k := by
  interval_cases k <;> rfl

theorem foldl_toDigitsCore (fuel n : Nat) (ds : List Char) (h : n < fuel) :
    (Nat.toDigitsCore 10 fuel n ds).foldl (fun a c => 10 * a + digitVal c) 0 =
      ds.foldl (fun a c => 10 * a + digitVal c) n := by
  induction fuel generalizing n ds with
  | zero => omega
  | succ fuel ih =>
    unfold Nat.toDigitsCore
    simp only
    by_cases h0 : n / 10 = 0
    · simp only [h0, if_true, List.foldl_cons]
      rw [digitVal_digitChar _ (Nat.mod_lt _ (by norm_num))]
      have : n < 10 := by omega
      rw [Nat.mod_eq_of_lt this]
      simp
    · simp only [h0, if_false]
      rw [ih (n / 10) _ (by omega), List.foldl_cons,
        digitVal_digitChar _ (Nat.mod_lt _ (by norm_num))]
      congr 1
      omega

theorem decimalValue_repr (n : Nat) : decimalValue (Nat.repr n).data = n := by
  unfold decimalValue Nat.repr Nat.toDigits
  simp only [List.asString]
  rw [foldl_toDigitsCore _ _ _ (Nat.lt_succ_self n)]
  rfl

theorem head_toDigitsCore (fuel n : Nat) (ds : List Char) (h : n < fuel) :
    ∃ k, k < 10 ∧ ∃ rest, Nat.toDigitsCore 10 fuel n ds = Nat.digitChar k :: rest := by
  induction fuel generalizing n ds with
  | zero => omega
  | succ fuel ih =>
    unfold Nat.toDigitsCore
    simp only
    by_cases h0 : n / 10 = 0
    · simp only [h0, if_true]
      exact ⟨n % 10, Nat.mod_lt _ (by norm_num), ds, rfl⟩
    · simp only [h0, if_false]
      exact ih (n / 10) _ (by omega)

theorem repr_head (n : Nat) : ∃ c rest, (Nat.repr n).data = c :: rest ∧ c ≠ '-' := by
  obtain ⟨k, hk, rest, h⟩ := head_toDigitsCore (n + 1) n [] (Nat.lt_succ_self n)
  refine ⟨Nat.digitChar k, rest, ?_, ?_⟩
  · simpa [Nat.repr, Nat.toDigits, List.asString] using h
  · interval_cases k <;> decide

theorem toString_nat_inj (a b : Nat) (h : toString a = toString b) : a = b := by
  have := congrArg (fun s => decimalValue s.data) h
  simpa [toString, decimalValue_repr] using this

theorem toString_int_inj (a b : Int) (h : toString a = toString b) : a = b := by
  have hneg : ∀ m : Nat, (toString (Int.negSucc m)).data = '-' :: (toString (m + 1)).data :=
    fun _ => rfl
  have hnat : ∀ m : Nat, toString (Int.ofNat m) = toString m := fun _ => rfl
  cases a with
  | ofNat m =>
    cases b with
    | ofNat n =>
      rw [hnat, hnat] at h
      rw [toString_nat_inj m n h]
    | negSucc n =>
      obtain ⟨c, rest, hc, hne⟩ := repr_head m
      have h1 := congrArg String.data h
      rw [hneg, hnat] at h1
      have h2 : (toString m).data = c :: rest := hc
      rw [h2] at h1
      injection h1 with h3 _
      exact absurd h3 hne
  | negSucc m =>
    cases b with
    | ofNat n =>
      obtain ⟨c, rest, hc, hne⟩ := repr_head n
      have h1 := congrArg String.data h
      rw [hneg, hnat] at h1
      have h2 : (toString n).data = c :: rest := hc
      rw [h2] at h1
      injection h1 with h3 _
      exact absurd h3.symm hne
    | negSucc n =>
      have h1 := congrArg String.data h
      rw [hneg, hneg] at h1
      injection h1 with _ h3
      have h4 : toString (m + 1) = toString (n + 1) := String.ext h3
      have := toString_nat_inj _ _ h4
      have hmn : m = n := by omega
      rw [hmn]

theorem lineID_inj (a b : Int) (h : "line_" ++ toString a = "line_" ++ toString b) : a = b := by
  apply toString_int_inj
  have h1 := congrArg String.data h
  simp only [String.data_append] at h1
  exact String.ext (List.append_cancel_left h1)

theorem registryPut_of_new (lines : List Line) (line : Line)
    (h : ∀ l ∈ lines, l.ID ≠ line.ID) : registryPut lines line = lines ++ [line] := by
  have : lines.any (fun l => l.ID == line.ID) = false := by
    rw [List.any_eq_false]
    intro l hl
    simpa using h l hl
  simp [registryPut, this]

theorem registryPut_of_old (lines : List Line) (line : Line)
    (h : ∃ l ∈ lines, l.ID = line.ID) : registryPut lines line = registrySet lines line := by
  have : lines.any (fun l => l.ID == line.ID) = true := by
    rw [List.any_eq_true]
    obtain ⟨l, hl, hid⟩ := h
    exact ⟨l, hl, by simpa using hid⟩
  simp [registryPut, this]

theorem mem_registrySet (lines : List Line) (line x : Line) :
    x ∈ registrySet lines line ↔ ∃ l ∈ lines, x = if l.ID = line.ID then line else l := by
  simp only [registrySet, List.mem_map]
  constructor
  · rintro ⟨l, hl, rfl⟩; exact ⟨l, hl, rfl⟩
  · rintro ⟨l, hl, rfl⟩; exact ⟨l, hl, rfl⟩

/-- C13, as the code has it: the identifier of a new line is `line_` followed by
the Unix second of its creation.  It differs from every identifier in the
registry, and the registry gains exactly one entry with no line replaced, exactly
when no registered line carries the identifier of that second; a registered
line that carries it is replaced by the new one and the registry keeps its
size.  Creations at different seconds receive different identifiers. -/
theorem createLine_identifier (lines : List Line) (name : String) (unix : Int) (handle : Nat)
    (hname : name ≠ "") :
    (createLine lines name unix handle).reply = .line (newLine name unix handle) ∧
    (newLine name unix handle).ID = "line_" ++ toString unix ∧
    ((∀ l ∈ lines, l.ID ≠ "line_" ++ toString unix) →
      (createLine lines name unix handle).lines = lines ++ [newLine name unix handle]) ∧
    ((∃ l ∈ lines, l.ID = "line_" ++ toString unix) →
      (createLine lines name unix handle).lines.length = lines.length ∧
      newLine name unix handle ∈ (createLine lines name unix handle).lines ∧
      ∀ l ∈ (createLine lines name unix handle).lines,
        l.ID = "line_" ++ toString unix → l = newLine name unix handle) ∧
    (∀ (name₂ : String) (unix₂ : Int) (handle₂ : Nat), unix₂ ≠ unix →
      (newLine name₂ unix₂ handle₂).ID ≠ (newLine name unix handle).ID) := by
  have hn : (name == "") = false := by simpa using hname
  have hres : createLine lines name unix handle =
      ⟨registryPut lines (newLine name unix handle),
        [.registryPut (newLine name unix handle).ID, .saveLineToDB (newLine name unix handle),
          .spawnConnectLine (newLine name unix handle).ID],
        .line (newLine name unix handle)⟩ := by
    simp [createLine, hn]
  have hid : (newLine name unix handle).ID = "line_" ++ toString unix := rfl
  refine ⟨by rw [hres], hid, ?_, ?_, ?_⟩
  · intro hnew
    rw [hres]
    exact registryPut_of_new lines _ (by rw [hid]; exact hnew)
  · intro hold
    rw [hres]
    simp only
    rw [registryPut_of_old lines _ (by rw [hid]; exact hold)]
    refine ⟨by simp [registrySet], ?_, ?_⟩
    · obtain ⟨l, hl, hlid⟩ := hold
      rw [mem_registrySet]
      exact ⟨l, hl, by simp [hid, hlid]⟩
    · intro l hl hlid
      rw [mem_registrySet] at hl
      obtain ⟨l₀, _, rfl⟩ := hl
      by_cases h0 : l₀.ID = (newLine name unix handle).ID
      · simp [h0]
      · simp only [h0, if_false] at hlid ⊢
        exact absurd (hid ▸ hlid) h0
  · intro name₂ unix₂ handle₂ hne heq
    exact hne (lineID_inj unix₂ unix heq)

/-- Witness of the amended C13: a creation in an empty registry. -/
theorem createLine_identifier_witness :
    (createLine [] "ventas" 1700000000 1).reply = .line (newLine "ventas" 1700000000 1) ∧
      (createLine [] "ventas" 1700000000 1).lines = [newLine "ventas" 1700000000 1] :=
  have h := createLine_identifier [] "ventas" 1700000000 1 (by decide)
  ⟨h.1, h.2.2.1 (by simp)⟩

/-- C13 fails as stated: a second creation within the second 1700000000 is given
the identifier `line_1700000000` of the line created first, which it replaces;
the registry still has one entry. -/
theorem createLine_same_second :
    (createLine [] "ventas" 1700000000 1).lines = [newLine "ventas" 1700000000 1] ∧
      (newLine "soporte" 1700000000 2).ID = (newLine "ventas" 1700000000 1).ID ∧
      (createLine [newLine "ventas" 1700000000 1] "soporte" 1700000000 2).lines =
        [newLine "soporte" 1700000000 2] ∧
      lookupLine (createLine [newLine "ventas" 1700000000 1] "soporte" 1700000000 2).lines
        "line_1700000000" = some (newLine "soporte" 1700000000 2) := by
  refine ⟨by decide, by decide, by decide, by decide⟩

/-! ## Derived availability -/

theorem availInv_newLine (name : String) (unix : Int) (handle : Nat) :
    AvailInv (newLine name unix handle) := by
  simp [AvailInv, newLine]

theorem availInv_loadedLine (devices : Option (List (Option String))) (handle : Nat)
    (row : StoredRow) : AvailInv (loadedLine devices handle row) := by
  simp [AvailInv, loadedLine]

theorem availInv_handleEvent (line : Line) (evt : Event) (h : AvailInv line) :
    AvailInv (handleEvent line evt).1 := by
  unfold AvailInv at h ⊢
  cases evt with
  | Connected =>
    by_cases ha : line.Active = true
    · simp [handleEvent, ha]
    · have hav : line.Available = false := by
        cases hv : line.Available with
        | false => rfl
        | true => exact absurd (h.mp hv).2 ha
      simp [handleEvent, ha, hav]
  | LoggedOut => simp [handleEvent]
  | Message info message =>
    simp only [handleEvent]
    split
    · exact h
    · split <;> exact h
  | Receipt read => exact h
  | Other => exact h

theorem availInv_toggleLine (line : Line) (active : Bool) (h : AvailInv line) :
    AvailInv (toggleLine line active).1 := by
  unfold AvailInv at h ⊢
  cases active with
  | false => simp [toggleLine]
  | true =>
    by_cases hs : line.Status = "connected"
    · simp [toggleLine, hs]
    · have hav : line.Available = false := by
        cases hv : line.Available with
        | false => rfl
        | true => exact absurd (h.mp hv).1 hs
      simp [toggleLine, hs, hav]

theorem availInv_resetLine (line : Line) (newClient : Client) :
    AvailInv (resetLine line newClient) := by
  simp [AvailInv, resetLine]

theorem availInv_registrySet (lines : List Line) (line : Line)
    (hlines : ∀ l ∈ lines, AvailInv l) (hline : AvailInv line) :
    ∀ l ∈ registrySet lines line, AvailInv l := by
  intro l hl
  rw [mem_registrySet] at hl
  obtain ⟨l₀, hl₀, rfl⟩ := hl
  split
  · exact hline
  · exact hlines l₀ hl₀

theorem availInv_registryPut (lines : List Line) (line : Line)
    (hlines : ∀ l ∈ lines, AvailInv l) (hline : AvailInv line) :
    ∀ l ∈ registryPut lines line, AvailInv l := by
  unfold registryPut
  split
  · exact availInv_registrySet lines line hlines hline
  · intro l hl
    rcases List.mem_append.mp hl with h | h
    · exact hlines l h
    · simp at h; rw [h]; exact hline

theorem lookupLine_mem (lines : List Line) (id : String) (line : Line)
    (h : lookupLine lines id = some line) : line ∈ lines :=
  List.mem_of_find?_eq_some h

theorem availInv_createLine (lines : List Line) (name : String) (unix : Int) (handle : Nat)
    (hlines : ∀ l ∈ lines, AvailInv l) :
    ∀ l ∈ (createLine lines name unix handle).lines, AvailInv l := by
  unfold createLine
  split
  · exact hlines
  · exact availInv_registryPut lines _ hlines (availInv_newLine name unix handle)

theorem availInv_loadExistingLines (devices : Option (List (Option String)))
    (lines : List Line) (rows : List (Option StoredRow)) (hlines : ∀ l ∈ lines, AvailInv l) :
    ∀ l ∈ (loadExistingLines devices lines rows).1, AvailInv l := by
  unfold loadExistingLines
  suffices h : ∀ (acc : List Line × List Action), (∀ l ∈ acc.1, AvailInv l) →
      ∀ l ∈ (rows.foldl (loadRow devices) acc).1, AvailInv l from h (lines, []) hlines
  induction rows with
  | nil => intro acc hacc; exact hacc
  | cons row rows ih =>
    intro acc hacc
    rw [List.foldl_cons]
    apply ih
    cases row with
    | none => exact hacc
    | some row =>
      exact availInv_registryPut acc.1 _ hacc (availInv_loadedLine devices _ row)

theorem availInv_dispatchEvent (lines : List Line) (lineID : String) (evt : Event)
    (hlines : ∀ l ∈ lines, AvailInv l) :
    ∀ l ∈ (dispatchEvent lines lineID evt).1, AvailInv l := by
  unfold dispatchEvent
  cases h : lookupLine lines lineID with
  | none => exact hlines
  | some line =>
    exact availInv_registrySet lines _ hlines
      (availInv_handleEvent line evt (hlines line (lookupLine_mem lines lineID line h)))

theorem availInv_toggleLineActive (lines : List Line) (lineID : String) (active : Bool)
    (hlines : ∀ l ∈ lines, AvailInv l) :
    ∀ l ∈ (toggleLineActive lines lineID active).lines, AvailInv l := by
  unfold toggleLineActive
  cases h : lookupLine lines lineID with
  | none => exact hlines
  | some line =>
    exact availInv_registrySet lines _ hlines
      (availInv_toggleLine line active (hlines line (lookupLine_mem lines lineID line h)))

theorem availInv_reconnectLine (lines : List Line) (lineID : String) (handle : Nat)
    (hlines : ∀ l ∈ lines, AvailInv l) :
    ∀ l ∈ (reconnectLine lines lineID handle).lines, AvailInv l := by
  unfold reconnectLine
  cases h : lookupLine lines lineID with
  | none => exact hlines
  | some line =>
    simp only
    split
    · exact hlines
    · exact availInv_registrySet lines _ hlines (availInv_resetLine line _)

theorem availInv_updateLineConfig (lines : List Line) (lineID : String)
    (newConfig : LineConfig) (hlines : ∀ l ∈ lines, AvailInv l) :
    ∀ l ∈ (updateLineConfig lines lineID newConfig).lines, AvailInv l := by
  unfold updateLineConfig
  cases h : lookupLine lines lineID with
  | none => exact hlines
  | some line =>
    exact availInv_registrySet lines _ hlines (hlines line (lookupLine_mem lines lineID line h))

theorem availInv_setWebhook (lines : List Line) (lineID : String) (url : String)
    (hlines : ∀ l ∈ lines, AvailInv l) :
    ∀ l ∈ (setWebhook lines lineID url).lines, AvailInv l := by
  unfold setWebhook
  cases h : lookupLine lines lineID with
  | none => exact hlines
  | some line =>
    exact availInv_registrySet lines _ hlines (hlines line (lookupLine_mem lines lineID line h))

theorem qrStep_status (qrEncode : String → Option Bytes) (line : Line) (evt : QREvent) :
    (qrStep qrEncode line evt).Status = line.Status := by
  unfold qrStep
  split
  · cases qrEncode evt.Code <;> rfl
  · rfl

theorem foldl_qrStep_status (qrEncode : String → Option Bytes) (qrEvents : List QREvent)
    (line : Line) : (qrEvents.foldl (qrStep qrEncode) line).Status = line.Status := by
  induction qrEvents generalizing line with
  | nil => rfl
  | cons evt rest ih => rw [List.foldl_cons, ih, qrStep_status]

theorem availInv_setLastUsed (lines : List Line) (id : String) (now : Time)
    (hlines : ∀ l ∈ lines, AvailInv l) : ∀ l ∈ setLastUsed lines id now, AvailInv l := by
  intro l hl
  rw [mem_setLastUsed] at hl
  obtain ⟨l₀, hl₀, rfl⟩ := hl
  split
  · exact hlines l₀ hl₀
  · exact hlines l₀ hl₀

theorem deliver_lines (env : Env) (now : Time) (lines : List Line) (line : Line)
    (req : MessageRequest) (recipient : JID) (before : List Effect) (msg : Message) :
    (deliver env now lines line req recipient before msg).lines = lines ∨
      (deliver env now lines line req recipient before msg).lines =
        setLastUsed lines line.ID now := by
  unfold deliver
  by_cases hsend : env.sendMessage line.Client recipient msg = true
  · right
    cases hid : line.Client.bind (·.StoreID) <;> simp [hsend, hid]
  · left; simp [hsend]

theorem sendMessageAuto_lines (env : Env) (now : Time) (lines : List Line)
    (req : MessageRequest) :
    (sendMessageAuto env now lines req).lines = lines ∨
      ∃ id, (sendMessageAuto env now lines req).lines = setLastUsed lines id now := by
  cases hsel : (selectLine lines).1 with
  | none =>
    left
    unfold sendMessageAuto
    split
    · rfl
    · split
      · rfl
      · simp only [hsel]
  | some s =>
    rcases sendMessageAuto_cases env now lines req s hsel with ⟨_, h⟩ | ⟨r, before, msg, heq⟩
    · exact Or.inl h
    · rw [heq]
      rcases deliver_lines env now lines s req r before msg with h | h
      · exact Or.inl h
      · exact Or.inr ⟨_, h⟩

theorem sendMessage_lines (env : Env) (now : Time) (lines : List Line)
    (req : MessageRequest) :
    (sendMessage env now lines req).lines = lines ∨
      ∃ id, (sendMessage env now lines req).lines = setLastUsed lines id now := by
  unfold sendMessage
  split
  · exact Or.inl rfl
  · cases hline : lookupLine lines req.From with
    | none => exact Or.inl rfl
    | some line =>
      simp only
      split
      · exact Or.inl rfl
      · cases hjid : parseJID req.To with
        | error e => exact Or.inl rfl
        | ok recipient =>
          simp only
          split
          · cases hres : (createMediaMessage env line.Client req).result with
            | error e => exact Or.inl rfl
            | ok msg =>
              rcases deliver_lines env now lines line req recipient
                (createMediaMessage env line.Client req).effects msg with h | h
              · exact Or.inl h
              · exact Or.inr ⟨_, h⟩
          · split
            · exact Or.inl rfl
            · rcases deliver_lines env now lines line req recipient []
                (.Conversation req.Message) with h | h
              · exact Or.inl h
              · exact Or.inr ⟨_, h⟩

theorem availInv_sendMessage (env : Env) (now : Time) (lines : List Line)
    (req : MessageRequest) (hlines : ∀ l ∈ lines, AvailInv l) :
    ∀ l ∈ (sendMessage env now lines req).lines, AvailInv l := by
  rcases sendMessage_lines env now lines req with h | ⟨id, h⟩
  · rw [h]; exact hlines
  · rw [h]; exact availInv_setLastUsed lines id now hlines

theorem availInv_sendMessageAuto (env : Env) (now : Time) (lines : List Line)
    (req : MessageRequest) (hlines : ∀ l ∈ lines, AvailInv l) :
    ∀ l ∈ (sendMessageAuto env now lines req).lines, AvailInv l := by
  rcases sendMessageAuto_lines env now lines req with h | ⟨id, h⟩
  · rw [h]; exact hlines
  · rw [h]; exact availInv_setLastUsed lines id now hlines

theorem availInv_deleteLine (lines : List Line) (lineID : String) (deleteOK : Bool)
    (hlines : ∀ l ∈ lines, AvailInv l) :
    ∀ l ∈ (deleteLine lines lineID deleteOK).lines, AvailInv l := by
  unfold deleteLine
  cases h : lookupLine lines lineID with
  | none => exact hlines
  | some line =>
    intro l hl
    simp only [registryDelete, List.mem_filter] at hl
    exact hlines l hl.1

theorem qrStep_fields (qrEncode : String → Option Bytes) (line : Line) (evt : QREvent) :
    (qrStep qrEncode line evt).Available = line.Available ∧
      (qrStep qrEncode line evt).Active = line.Active := by
  unfold qrStep
  split
  · cases qrEncode evt.Code <;> exact ⟨rfl, rfl⟩
  · exact ⟨rfl, rfl⟩

theorem foldl_qrStep_fields (qrEncode : String → Option Bytes) (qrEvents : List QREvent)
    (line : Line) :
    (qrEvents.foldl (qrStep qrEncode) line).Available = line.Available ∧
      (qrEvents.foldl (qrStep qrEncode) line).Active = line.Active := by
  induction qrEvents generalizing line with
  | nil => exact ⟨rfl, rfl⟩
  | cons evt rest ih =>
    rw [List.foldl_cons]
    exact ⟨(ih _).1.trans (qrStep_fields qrEncode line evt).1,
      (ih _).2.trans (qrStep_fields qrEncode line evt).2⟩

theorem availInv_qrStep (qrEncode : String → Option Bytes) (line : Line) (evt : QREvent)
    (h : AvailInv line) : AvailInv (qrStep qrEncode line evt) := by
  unfold AvailInv at h ⊢
  rw [(qrStep_fields qrEncode line evt).1, (qrStep_fields qrEncode line evt).2,
    qrStep_status]
  exact h

theorem connectLine_state (qrEncode : String → Option Bytes) (connectOK : Bool)
    (qrEvents : List QREvent) (line : Line) :
    (connectLine qrEncode connectOK qrEvents line).1 = line ∨
      ((connectLine qrEncode connectOK qrEvents line).1.Status = "qr_pending" ∧
        (connectLine qrEncode connectOK qrEvents line).1.Available = line.Available ∧
        (connectLine qrEncode connectOK qrEvents line).1.Active = line.Active) := by
  unfold connectLine
  cases line.Client with
  | none => exact Or.inl rfl
  | some client =>
    simp only
    split
    · split
      · right
        exact ⟨by rw [foldl_qrStep_status], (foldl_qrStep_fields _ _ _).1,
          (foldl_qrStep_fields _ _ _).2⟩
      · exact Or.inl rfl
    · split <;> exact Or.inl rfl

theorem availInv_connectLine (qrEncode : String → Option Bytes) (connectOK : Bool)
    (qrEvents : List QREvent) (line : Line) (h : AvailInv line)
    (hdown : line.Available = false) :
    AvailInv (connectLine qrEncode connectOK qrEvents line).1 := by
  rcases connectLine_state qrEncode connectOK qrEvents line with heq | ⟨hs, ha, _⟩
  · rw [heq]; exact h
  · unfold AvailInv
    rw [ha, hdown, hs]
    simp

theorem availInv_of_reachable (lines : List Line)
    (h : ReachableWhen (fun line => line.Available = false) lines) :
    ∀ l ∈ lines, AvailInv l := by
  induction h with
  | start => intro l hl; simp at hl
  | load devices lines rows _ ih => exact availInv_loadExistingLines devices lines rows ih
  | create lines name unix handle _ ih => exact availInv_createLine lines name unix handle ih
  | event lines lineID evt _ ih => exact availInv_dispatchEvent lines lineID evt ih
  | toggle lines lineID active _ ih => exact availInv_toggleLineActive lines lineID active ih
  | reconnect lines lineID handle _ ih => exact availInv_reconnectLine lines lineID handle ih
  | config lines lineID newConfig _ ih => exact availInv_updateLineConfig lines lineID newConfig ih
  | webhook lines lineID url _ ih => exact availInv_setWebhook lines lineID url ih
  | delete lines lineID deleteOK _ ih => exact availInv_deleteLine lines lineID deleteOK ih
  | send env now lines req _ ih => exact availInv_sendMessage env now lines req ih
  | sendAuto env now lines req _ ih => exact availInv_sendMessageAuto env now lines req ih
  | connect qrEncode connectOK qrEvents lines lineID _ hguard ih =>
    unfold runConnectLine
    cases hline : lookupLine lines lineID with
    | none => exact ih
    | some line =>
      exact availInv_registrySet lines _ ih
        (availInv_connectLine qrEncode connectOK qrEvents line
          (ih line (lookupLine_mem lines lineID line hline)) (hguard line hline))
  | qrRound qrEncode evt lines lineID _ ih =>
    unfold runQRStep
    cases hline : lookupLine lines lineID with
    | none => exact ih
    | some line =>
      exact availInv_registrySet lines _ ih
        (availInv_qrStep qrEncode line evt (ih line (lookupLine_mem lines lineID line hline)))

/-- C14, as the code has it.  `Available = (Status = "connected" ∧ Active)` holds
of the line `createLine` builds and of the lines `loadExistingLines` builds; a
line that satisfies it still does after `handleEvent` with any event, and a
registry whose lines satisfy it still does after `toggleLineActive`,
`reconnectLine`, `updateLineConfig`, `setWebhook`, `deleteLine` and both send
handlers.  `connectLine` writes `Status = "qr_pending"` without touching
`Available`: it keeps the invariant on a line that is not available, and in
every registry reached while each run of `connectLine` meets its line not
available, an available line is connected. -/
theorem availability_invariant :
    (∀ (lines : List Line) (name : String) (unix : Int) (handle : Nat) (line : Line),
      (createLine lines name unix handle).reply = .line line → AvailInv line) ∧
    (∀ (devices : Option (List (Option String))) (rows : List (Option StoredRow)),
      ∀ l ∈ (loadExistingLines devices [] rows).1, AvailInv l) ∧
    (∀ (line : Line) (evt : Event), AvailInv line → AvailInv (handleEvent line evt).1) ∧
    (∀ (lines : List Line) (lineID : String), (∀ l ∈ lines, AvailInv l) →
      (∀ active, ∀ l ∈ (toggleLineActive lines lineID active).lines, AvailInv l) ∧
      (∀ handle, ∀ l ∈ (reconnectLine lines lineID handle).lines, AvailInv l) ∧
      (∀ newConfig, ∀ l ∈ (updateLineConfig lines lineID newConfig).lines, AvailInv l) ∧
      (∀ url, ∀ l ∈ (setWebhook lines lineID url).lines, AvailInv l) ∧
      (∀ deleteOK, ∀ l ∈ (deleteLine lines lineID deleteOK).lines, AvailInv l) ∧
      (∀ env now req, ∀ l ∈ (sendMessage env now lines req).lines, AvailInv l) ∧
      (∀ env now req, ∀ l ∈ (sendMessageAuto env now lines req).lines, AvailInv l)) ∧
    (∀ (qrEncode : String → Option Bytes) (connectOK : Bool) (qrEvents : List QREvent)
      (line : Line), AvailInv line → line.Available = false →
        AvailInv (connectLine qrEncode connectOK qrEvents line).1) ∧
    (∀ (qrEncode : String → Option Bytes) (connectOK : Bool) (qrEvents : List QREvent)
      (line : Line), (connectLine qrEncode connectOK qrEvents line).1.Available =
        line.Available) ∧
    (∀ lines : List Line, ReachableWhen (fun line => line.Available = false) lines →
      ∀ l ∈ lines, l.Available = true → l.Status = "connected") := by
  refine ⟨?_, ?_, availInv_handleEvent, ?_, availInv_connectLine, ?_, ?_⟩
  · intro lines name unix handle line h
    unfold createLine at h
    split at h
    · simp at h
    · simp only [AdminReply.line.injEq] at h
      rw [← h]
      exact availInv_newLine name unix handle
  · intro devices rows
    exact availInv_loadExistingLines devices [] rows (by simp)
  · intro lines lineID hlines
    exact ⟨fun active => availInv_toggleLineActive lines lineID active hlines,
      fun handle => availInv_reconnectLine lines lineID handle hlines,
      fun newConfig => availInv_updateLineConfig lines lineID newConfig hlines,
      fun url => availInv_setWebhook lines lineID url hlines,
      fun deleteOK => availInv_deleteLine lines lineID deleteOK hlines,
      fun env now req => availInv_sendMessage env now lines req hlines,
      fun env now req => availInv_sendMessageAuto env now lines req hlines⟩
  · intro qrEncode connectOK qrEvents line
    rcases connectLine_state qrEncode connectOK qrEvents line with heq | ⟨_, ha, _⟩
    · rw [heq]
    · exact ha
  · intro lines hreach l hl hav
    exact ((availInv_of_reachable lines hreach l hl).mp hav).1

/-- Witness of the amended C14: a paused line stays unavailable when its session
connects, and a new line keeps the invariant through `connectLine`. -/
theorem availability_invariant_witness :
    AvailInv pausedLine ∧ AvailInv (handleEvent pausedLine .Connected).1 ∧
      (handleEvent pausedLine .Connected).1.Available = false ∧
      AvailInv (connectLine sampleQR true [⟨"code", "2@abc"⟩]
        (newLine "ventas" 1700000000 1)).1 :=
  have h : AvailInv pausedLine := by simp [AvailInv, pausedLine, sampleLine]
  ⟨h, availability_invariant.2.2.1 pausedLine .Connected h, by decide,
    availability_invariant.2.2.2.2.1 sampleQR true [⟨"code", "2@abc"⟩]
      (newLine "ventas" 1700000000 1) (by simp [AvailInv, newLine]) rfl⟩

/-- C14 fails as stated: a line is created, its session reports `Connected`
before `connectLine` has written the status, and `connectLine` then writes
`qr_pending`; the registry reached holds a line with `Available = true` whose
`Status` is not `connected`. -/
theorem connectLine_breaks_availability :
    Reachable [{ newLine "ventas" 1700000000 1 with
      Status := "qr_pending", Available := true }] ∧
      ¬ AvailInv { newLine "ventas" 1700000000 1 with
        Status := "qr_pending", Available := true } ∧
      ¬ ∀ lines : List Line, Reachable lines →
          ∀ l ∈ lines, l.Available = true → l.Status = "connected" := by
  have hreach : Reachable [{ newLine "ventas" 1700000000 1 with
      Status := "qr_pending", Available := true }] := by
    have h1 : Reachable (createLine [] "ventas" 1700000000 1).lines :=
      ReachableWhen.create [] "ventas" 1700000000 1 ReachableWhen.start
    have h2 := ReachableWhen.event _ "line_1700000000" Event.Connected h1
    have h3 := ReachableWhen.connect sampleQR true [] _ "line_1700000000" h2
      (fun _ _ => trivial)
    have heq : runConnectLine sampleQR true []
        (dispatchEvent (createLine [] "ventas" 1700000000 1).lines "line_1700000000"
          Event.Connected).1 "line_1700000000" =
        [{ newLine "ventas" 1700000000 1 with Status := "qr_pending", Available := true }] := by
      decide
    rw [heq] at h3
    exact h3
  refine ⟨hreach, by simp [AvailInv], ?_⟩
  intro hall
  have := hall _ hreach _ (List.mem_singleton.mpr rfl) rfl
  revert this
  decide

/-! ## Session events and pairing -/

/-- C15 at a line that shows a pairing code: `handleEvent` with `LoggedOut` sets
`Status` to `disconnected` and clears `Available`, but leaves `QRCode` as it was,
so the line ends up disconnected with a non-empty pairing code; for every line
the `LoggedOut` case writes those two fields only, whereas the `Connected` case
does clear `QRCode`. -/
theorem handleEvent_loggedOut_keeps_code :
    pairingLine.QRCode ≠ "" ∧
      (handleEvent pairingLine .LoggedOut).1.Status = "disconnected" ∧
      (handleEvent pairingLine .LoggedOut).1.Available = false ∧
      (handleEvent pairingLine .LoggedOut).1.QRCode = "data:image/png;base64,iVBORw0KGgo=" ∧
      (∀ line : Line, (handleEvent line .LoggedOut).1 =
        { line with Status := "disconnected", Available := false }) ∧
      (∀ line : Line, (handleEvent line .Connected).1.QRCode = "") := by
  refine ⟨by decide, by decide, by decide, by decide, fun _ => rfl, fun _ => rfl⟩

/-- C16, as the code has it: for a line with no stored credential whose connect
call succeeds, the status when `connectLine` returns is `qr_pending`, whatever
finite sequence of pairing events the channel delivered before it was closed;
`connectLine` never writes `disconnected`. -/
theorem connectLine_ends_pending (qrEncode : String → Option Bytes)
    (qrEvents : List QREvent) (line : Line) (client : Client)
    (hclient : line.Client = some client) (hnew : client.StoreID = none) :
    (connectLine qrEncode true qrEvents line).1.Status = "qr_pending" := by
  unfold connectLine
  simp only [hclient, hnew, Option.isNone_none, if_true]
  rw [foldl_qrStep_status]

/-- Witness of the amended C16: a new line, one code, then a timeout. -/
theorem connectLine_ends_pending_witness :
    (connectLine sampleQR true [⟨"code", "2@abc"⟩, ⟨"timeout", ""⟩]
      (newLine "ventas" 1700000000 1)).1.Status = "qr_pending" :=
  connectLine_ends_pending sampleQR [⟨"code", "2@abc"⟩, ⟨"timeout", ""⟩]
    (newLine "ventas" 1700000000 1) ⟨1, none⟩ rfl rfl

/-- C16 fails as stated: a new line with no credential, whose channel delivers
one code and a timeout and is then closed, is left in `qr_pending`, not in
`disconnected`, with the last code still on display. -/
theorem connectLine_not_disconnected :
    (newLine "ventas" 1700000000 1).Client = some ⟨1, none⟩ ∧
      (connectLine sampleQR true [⟨"code", "2@abc"⟩, ⟨"timeout", ""⟩]
        (newLine "ventas" 1700000000 1)).1.Status = "qr_pending" ∧
      (connectLine sampleQR true [⟨"code", "2@abc"⟩, ⟨"timeout", ""⟩]
        (newLine "ventas" 1700000000 1)).1.Status ≠ "disconnected" ∧
      (connectLine sampleQR true [⟨"code", "2@abc"⟩, ⟨"timeout", ""⟩]
        (newLine "ventas" 1700000000 1)).1.QRCode = "data:image/png;base64,AQID" := by
  refine ⟨by decide, by decide, by decide, by decide⟩

/-- C17. Pairing lifecycle: for a line with no stored credential whose connect
call succeeds, `connectLine` is the loop over the pairing events started from
the line with `Status = "qr_pending"`, and no round of the loop changes
`Status`; a status other than `connected` stays other than `connected` under
every event but `Connected` and under every pairing event, while `Connected`
sets it to `connected`; if the connect call fails the line is left as it
was. -/
theorem pairing_lifecycle (qrEncode : String → Option Bytes) (line : Line) (client : Client)
    (hclient : line.Client = some client) (hnew : client.StoreID = none) :
    (∀ qrEvents, (connectLine qrEncode true qrEvents line).1 =
      qrEvents.foldl (qrStep qrEncode) { line with Status := "qr_pending" }) ∧
    (connectLine qrEncode true [] line).1.Status = "qr_pending" ∧
    (∀ (l : Line) (qrEvt : QREvent), (qrStep qrEncode l qrEvt).Status = l.Status) ∧
    (∀ (l : Line) (evt : Event), l.Status ≠ "connected" → evt ≠ .Connected →
      (handleEvent l evt).1.Status ≠ "connected") ∧
    (∀ l : Line, (handleEvent l .Connected).1.Status = "connected") ∧
    (∀ qrEvents, (connectLine qrEncode false qrEvents line).1 = line) := by
  refine ⟨?_, ?_, qrStep_status qrEncode, ?_, ?_, ?_⟩
  · intro qrEvents
    unfold connectLine
    simp only [hclient, hnew, Option.isNone_none, if_true]
  · unfold connectLine
    simp only [hclient, hnew, Option.isNone_none, if_true, List.foldl_nil]
  · intro l evt hl hevt
    cases evt with
    | Connected => exact absurd rfl hevt
    | LoggedOut => simp [handleEvent]
    | Message info message =>
      simp only [handleEvent]
      split
      · exact hl
      · split <;> exact hl
    | Receipt read => exact hl
    | Other => exact hl
  · intro l
    cases ha : l.Active <;> simp [handleEvent, ha]
  · intro qrEvents
    unfold connectLine
    simp only [hclient, hnew, Option.isNone_none, if_true, Bool.false_eq_true, if_false]

/-- Witness of C17: a new line whose connect call succeeds. -/
theorem pairing_lifecycle_witness :
    (connectLine sampleQR true [] (newLine "ventas" 1700000000 1)).1.Status = "qr_pending" ∧
      (connectLine sampleQR false [⟨"code", "2@abc"⟩] (newLine "ventas" 1700000000 1)).1 =
        newLine "ventas" 1700000000 1 :=
  have h := pairing_lifecycle sampleQR (newLine "ventas" 1700000000 1) ⟨1, none⟩ rfl rfl
  ⟨h.2.1, h.2.2.2.2.2 _⟩

/-! ## Reconnection and deletion -/

/-- C18. Reconnect on a connected line is a no-op: the registry, with every
field of the line and every other entry, is returned as it was, no session is
disconnected and no connect is started, the reply reports `connected`, and a
second call gives the same result. -/
theorem reconnectLine_connected_noop (lines : List Line) (lineID : String) (handle : Nat)
    (line : Line) (hline : lookupLine lines lineID = some line)
    (hconn : line.Status = "connected") :
    (reconnectLine lines lineID handle).lines = lines ∧
    lookupLine (reconnectLine lines lineID handle).lines lineID = some line ∧
    (reconnectLine lines lineID handle).actions = [] ∧
    (reconnectLine lines lineID handle).reply =
      .json [("message", "La línea ya está conectada"), ("status", "connected")] ∧
    (∀ handle₂, reconnectLine (reconnectLine lines lineID handle).lines lineID handle₂ =
      reconnectLine lines lineID handle) := by
  have hres : ∀ h, reconnectLine lines lineID h =
      ⟨lines, [], .json [("message", "La línea ya está conectada"), ("status", "connected")]⟩ := by
    intro h
    unfold reconnectLine
    simp only [hline, hconn, beq_self_eq_true, if_true]
  refine ⟨by rw [hres], by rw [hres]; exact hline, by rw [hres], by rw [hres], ?_⟩
  intro handle₂
  rw [hres handle, hres handle₂]

/-- Witness of C18 on the line `line_1` of `sampleRegistry`. -/
theorem reconnectLine_connected_noop_witness :
    (reconnectLine sampleRegistry "line_1" 9).lines = sampleRegistry ∧
      (reconnectLine sampleRegistry "line_1" 9).actions = [] :=
  have h := reconnectLine_connected_noop sampleRegistry "line_1" 9 (sampleLine "line_1" 1 10)
    (by decide) (by decide)
  ⟨h.1, h.2.2.1⟩

/-- C19 at a paired line whose session is down: `reconnectLine` disconnects the
old session and resets `Status`, `QRCode` and `Available`, but the session it
installs is bound to a new device with no credential, not to the credential the
old session had; for every line that is not connected the new client is built
on `container.NewDevice()`. -/
theorem reconnectLine_drops_credential :
    idleLine.Client = some ⟨7, some "5491150000000@s.whatsapp.net"⟩ ∧
      (reconnectLine [idleLine] "line_7" 8).actions =
        [.disconnect ⟨7, some "5491150000000@s.whatsapp.net"⟩, .spawnConnectLine "line_7"] ∧
      (reconnectLine [idleLine] "line_7" 8).lines =
        [{ idleLine with Client := some ⟨8, none⟩ }] ∧
      (∀ (lines : List Line) (lineID : String) (handle : Nat) (line : Line),
        lookupLine lines lineID = some line → line.Status ≠ "connected" →
          (reconnectLine lines lineID handle).lines =
            registrySet lines
              { line with Client := some ⟨handle, none⟩, Status := "disconnected", QRCode := "",
                          Available := false }) := by
  refine ⟨by decide, by decide, by decide, ?_⟩
  intro lines lineID handle line hline hconn
  have : (line.Status == "connected") = false := by simpa using hconn
  unfold reconnectLine
  simp only [hline, this, Bool.false_eq_true, if_false]
  rfl

theorem lookupLine_registryDelete_self (lines : List Line) (id : String) :
    lookupLine (registryDelete lines id) id = none := by
  rw [lookupLine_eq_none]
  intro l hl
  simp only [registryDelete, List.mem_filter, bne_iff_ne, ne_eq] at hl
  exact hl.2

theorem lookupLine_registryDelete_other (lines : List Line) (id k : String) (h : k ≠ id) :
    lookupLine (registryDelete lines id) k = lookupLine lines k := by
  induction lines with
  | nil => rfl
  | cons x xs ih =>
    simp only [lookupLine, registryDelete] at ih ⊢
    by_cases hx : x.ID = id
    · have hk : (x.ID == k) = false := by
        simp only [beq_eq_false_iff_ne, ne_eq]
        intro e; exact h (by rw [← e, hx])
      have hk2 : (id == k) = false := by rw [← hx]; exact hk
      simp only [List.filter_cons, hx, bne_self_eq_false, Bool.false_eq_true, if_false,
        List.find?_cons, hk2]
      exact ih
    · have hne : (x.ID != id) = true := by simpa using hx
      simp only [List.filter_cons, hne, if_true, List.find?_cons]
      cases x.ID == k
      · exact ih
      · rfl

/-- C20. Line deletion: an id that is not registered is answered 404 with the
registry unchanged and no session or store operation; for a registered line the
operations are, in this order, the disconnect of its session, the removal of
the registry entry and the deletion of the stored row, after which the id is
not found, a second deletion is answered 404, and every other entry is as
before; whether the store deletion fails changes neither the reply nor the
registry. -/
theorem deleteLine_effects (lines : List Line) (lineID : String) (deleteOK : Bool) :
    ((∀ l ∈ lines, l.ID ≠ lineID) →
      deleteLine lines lineID deleteOK =
        ⟨lines, [], .error 404 "Línea no encontrada"⟩) ∧
    (∀ (line : Line) (client : Client), lookupLine lines lineID = some line →
      line.Client = some client →
      (deleteLine lines lineID deleteOK).actions.take 3 =
        [.disconnect client, .registryDelete lineID, .deleteLineFromDB lineID] ∧
      (deleteLine lines lineID true).actions =
        [.disconnect client, .registryDelete lineID, .deleteLineFromDB lineID] ∧
      (deleteLine lines lineID deleteOK).reply = .json [("message", "Línea eliminada")] ∧
      lookupLine (deleteLine lines lineID deleteOK).lines lineID = none ∧
      (∀ ok, (deleteLine (deleteLine lines lineID deleteOK).lines lineID ok).reply =
        .error 404 "Línea no encontrada") ∧
      (∀ k, k ≠ lineID →
        lookupLine (deleteLine lines lineID deleteOK).lines k = lookupLine lines k)) ∧
    (deleteLine lines lineID true).lines = (deleteLine lines lineID false).lines ∧
    (deleteLine lines lineID true).reply = (deleteLine lines lineID false).reply := by
  refine ⟨?_, ?_, ?_, ?_⟩
  · intro hkey
    have hnone := (lookupLine_eq_none lines lineID).mpr hkey
    unfold deleteLine
    simp only [hnone]
    rfl
  · intro line client hline hclient
    have hres : ∀ ok, deleteLine lines lineID ok =
        ⟨registryDelete lines lineID,
          [.disconnect client] ++ [.registryDelete lineID, .deleteLineFromDB lineID] ++
            (if ok then [] else [.log "Error al eliminar línea de DB"]),
          .json [("message", "Línea eliminada")]⟩ := by
      intro ok
      unfold deleteLine
      simp only [hline, hclient]
    refine ⟨?_, ?_, ?_, ?_, ?_, ?_⟩
    · rw [hres]; cases deleteOK <;> rfl
    · rw [hres]; rfl
    · rw [hres]
    · rw [hres]; exact lookupLine_registryDelete_self lines lineID
    · intro ok
      rw [hres deleteOK]
      unfold deleteLine
      simp only [lookupLine_registryDelete_self]
      rfl
    · intro k hk
      rw [hres]
      exact lookupLine_registryDelete_other lines lineID k hk
  · unfold deleteLine
    cases lookupLine lines lineID <;> rfl
  · unfold deleteLine
    cases lookupLine lines lineID <;> rfl

/-- Witness of C20: deleting `line_2` of `sampleRegistry`, the store failing. -/
theorem deleteLine_effects_witness :
    (deleteLine sampleRegistry "line_2" false).actions.take 3 =
        [.disconnect ⟨2, some "5491150000000@s.whatsapp.net"⟩, .registryDelete "line_2",
          .deleteLineFromDB "line_2"] ∧
      lookupLine (deleteLine sampleRegistry "line_2" false).lines "line_2" = none ∧
      deleteLine sampleRegistry "line_9" true =
        ⟨sampleRegistry, [], .error 404 "Línea no encontrada"⟩ :=
  have h := (deleteLine_effects sampleRegistry "line_2" false).2.1 (sampleLine "line_2" 2 20)
    ⟨2, some "5491150000000@s.whatsapp.net"⟩ (by decide) (by decide)
  ⟨h.1, h.2.2.2.1, (deleteLine_effects sampleRegistry "line_9" true).1 (by decide)⟩

/-! ## Base64 encoding -/

theorem and_63 (x : Nat) : x &&& 0x3F = x % 64 := by
  have := Nat.and_pow_two_sub_one_eq_mod x 6
  simpa using this

theorem pack_two (a b : Nat) (hb : b < 256) :
    (a <<< 16) ||| (b <<< 8) = a * 65536 + b * 256 := by
  have h := Nat.mul_add_lt_is_or (i := 16) (b := b * 256) (by omega) a
  rw [Nat.shiftLeft_eq, Nat.shiftLeft_eq]
  norm_num at h ⊢
  rw [Nat.mul_comm a 65536, ← h]

theorem pack_three (a b c : Nat) (hb : b < 256) (hc : c < 256) :
    (a <<< 16) ||| (b <<< 8) ||| c = a * 65536 + b * 256 + c := by
  rw [pack_two a b hb]
  have h := Nat.mul_add_lt_is_or (i := 8) (b := c) (by omega) (a * 256 + b)
  norm_num at h
  have e : a * 65536 + b * 256 = 256 * (a * 256 + b) := by ring
  rw [e, ← h]

set_option maxRecDepth 100000 in
theorem base64Char_spec : ∀ i < 64,
    base64Value (base64Char i) = some i ∧ base64Char i ≠ '=' ∧
      isBase64Alphabet (base64Char i) = true := by
  decide

theorem sextet_spec (x : Nat) :
    base64Value (base64Char (x % 64)) = some (x % 64) ∧ base64Char (x % 64) ≠ '=' ∧
      isBase64Alphabet (base64Char (x % 64)) = true :=
  base64Char_spec (x % 64) (Nat.mod_lt _ (by norm_num))

theorem encodeBase64Loop_length (d : List Nat) :
    (encodeBase64Loop d).length = 4 * ((d.length + 2) / 3) := by
  induction d using encodeBase64Loop.induct with
  | case1 => simp [encodeBase64Loop]
  | case2 d0 => simp [encodeBase64Loop]
  | case3 d0 d1 => simp [encodeBase64Loop]
  | case4 d0 d1 d2 rest ih =>
    simp only [encodeBase64Loop, List.length_cons, ih]
    omega

theorem stdBase64Decode_full (c0 c1 c2 c3 : Char) (rest : List Char) (v0 v1 v2 v3 : Nat)
    (h0 : base64Value c0 = some v0) (h1 : base64Value c1 = some v1)
    (h2 : base64Value c2 = some v2) (h3 : base64Value c3 = some v3) (hpad : c3 ≠ '=') :
    stdBase64Decode (c0 :: c1 :: c2 :: c3 :: rest) =
      (stdBase64Decode rest).map
        fun bytes => (v0 * 4 + v1 / 16) :: (v1 % 16 * 16 + v2 / 4) :: (v2 % 4 * 64 + v3) :: bytes := by
  rw [stdBase64Decode]
  simp only [hpad, and_false, if_false, h0, h1, h2, h3]

theorem encodeBase64Loop_decode (d : List Nat) (hbytes : ∀ b ∈ d, b < 256) :
    stdBase64Decode (encodeBase64Loop d) = some d := by
  induction d using encodeBase64Loop.induct with
  | case1 => simp [encodeBase64Loop, stdBase64Decode]
  | case2 d0 =>
    have h0 : d0 < 256 := hbytes d0 (by simp)
    simp only [encodeBase64Loop, and_63, Nat.shiftLeft_eq, Nat.shiftRight_eq_div_pow]
    rw [stdBase64Decode]
    simp only [and_self, if_true, (sextet_spec _).1]
    have e1 : (d0 * 2 ^ 16 / 2 ^ 12 % 64) % 16 = 0 := by omega
    have e2 : d0 * 2 ^ 16 / 2 ^ 18 % 64 * 4 + d0 * 2 ^ 16 / 2 ^ 12 % 64 / 16 = d0 := by omega
    simp only [e1, if_true, e2]
  | case3 d0 d1 =>
    have h0 : d0 < 256 := hbytes d0 (by simp)
    have h1 : d1 < 256 := hbytes d1 (by simp)
    simp only [encodeBase64Loop, and_63, pack_two d0 d1 h1, Nat.shiftRight_eq_div_pow]
    rw [stdBase64Decode]
    simp only [and_self, if_true, (sextet_spec _).2.1, if_false, (sextet_spec _).1]
    have e1 : ((d0 * 65536 + d1 * 256) / 2 ^ 6 % 64) % 4 = 0 := by omega
    have e2 : (d0 * 65536 + d1 * 256) / 2 ^ 18 % 64 * 4 +
        (d0 * 65536 + d1 * 256) / 2 ^ 12 % 64 / 16 = d0 := by omega
    have e3 : (d0 * 65536 + d1 * 256) / 2 ^ 12 % 64 % 16 * 16 +
        (d0 * 65536 + d1 * 256) / 2 ^ 6 % 64 / 4 = d1 := by omega
    simp only [e1, if_true, e2, e3]
  | case4 d0 d1 d2 rest ih =>
    have h0 : d0 < 256 := hbytes d0 (by simp)
    have h1 : d1 < 256 := hbytes d1 (by simp)
    have h2 : d2 < 256 := hbytes d2 (by simp)
    have hrest := ih fun b hb => hbytes b (by simp [hb])
    simp only [encodeBase64Loop, and_63, pack_three d0 d1 d2 h1 h2, Nat.shiftRight_eq_div_pow]
    rw [stdBase64Decode_full _ _ _ _ _ _ _ _ _ (sextet_spec _).1 (sextet_spec _).1
      (sextet_spec _).1 (sextet_spec _).1 (sextet_spec _).2.1, hrest]
    have e1 : (d0 * 65536 + d1 * 256 + d2) / 2 ^ 18 % 64 * 4 +
        (d0 * 65536 + d1 * 256 + d2) / 2 ^ 12 % 64 / 16 = d0 := by omega
    have e2 : (d0 * 65536 + d1 * 256 + d2) / 2 ^ 12 % 64 % 16 * 16 +
        (d0 * 65536 + d1 * 256 + d2) / 2 ^ 6 % 64 / 4 = d1 := by omega
    have e3 : (d0 * 65536 + d1 * 256 + d2) / 2 ^ 6 % 64 % 4 * 64 +
        (d0 * 65536 + d1 * 256 + d2) % 64 = d2 := by omega
    simp only [Option.map_some', e1, e2, e3]

theorem encodeBase64Loop_alphabet (d : List Nat) :
    ∃ body : List Char,
      encodeBase64Loop d = body ++ List.replicate ((3 - d.length % 3) % 3) '=' ∧
        ∀ c ∈ body, isBase64Alphabet c = true := by
  induction d using encodeBase64Loop.induct with
  | case1 => exact ⟨[], by simp [encodeBase64Loop], by simp⟩
  | case2 d0 =>
    refine ⟨[base64Char (((d0 <<< 16) >>> 18) % 64), base64Char (((d0 <<< 16) >>> 12) % 64)],
      by simp [encodeBase64Loop, and_63, List.replicate], ?_⟩
    intro c hc
    simp only [List.mem_cons, List.mem_singleton, List.not_mem_nil, or_false] at hc
    rcases hc with rfl | rfl <;> exact (sextet_spec _).2.2
  | case3 d0 d1 =>
    refine ⟨[base64Char ((((d0 <<< 16) ||| (d1 <<< 8)) >>> 18) % 64),
      base64Char ((((d0 <<< 16) ||| (d1 <<< 8)) >>> 12) % 64),
      base64Char ((((d0 <<< 16) ||| (d1 <<< 8)) >>> 6) % 64)],
      by simp [encodeBase64Loop, and_63, List.replicate], ?_⟩
    intro c hc
    simp only [List.mem_cons, List.mem_singleton, List.not_mem_nil, or_false] at hc
    rcases hc with rfl | rfl | rfl <;> exact (sextet_spec _).2.2
  | case4 d0 d1 d2 rest ih =>
    obtain ⟨body, hbody, halpha⟩ := ih
    refine ⟨base64Char ((((d0 <<< 16) ||| (d1 <<< 8) ||| d2) >>> 18) % 64) ::
      base64Char ((((d0 <<< 16) ||| (d1 <<< 8) ||| d2) >>> 12) % 64) ::
      base64Char ((((d0 <<< 16) ||| (d1 <<< 8) ||| d2) >>> 6) % 64) ::
      base64Char (((d0 <<< 16) ||| (d1 <<< 8) ||| d2) % 64) :: body, ?_, ?_⟩
    · have hlen : (d0 :: d1 :: d2 :: rest).length % 3 = rest.length % 3 := by
        simp only [List.length_cons]; omega
      rw [hlen]
      simp only [encodeBase64Loop, and_63, hbody, List.cons_append]
    · intro c hc
      simp only [List.mem_cons] at hc
      rcases hc with rfl | rfl | rfl | rfl | h
      · exact (sextet_spec _).2.2
      · exact (sextet_spec _).2.2
      · exact (sextet_spec _).2.2
      · exact (sextet_spec _).2.2
      · exact halpha c h

/-- C22. `encodeBase64` is standard padded Base64: for a byte sequence `d` of
length `n` the result has `4 * ⌈n / 3⌉` characters, which are characters of the
alphabet `A-Z a-z 0-9 + /` followed by 0, 2 or 1 pad characters `=` for `n mod 3`
equal to 0, 1 or 2, and the standard decoder returns exactly `d` on it; so the
payload of the QR data URL that `connectLine` stores decodes to the PNG. -/
theorem encodeBase64_standard (d : Bytes) (hbytes : ∀ b ∈ d, b < 256) :
    (encodeBase64 d).length = 4 * ((d.length + 2) / 3) ∧
    (∃ body : List Char,
      (encodeBase64 d).data = body ++ List.replicate ((3 - d.length % 3) % 3) '=' ∧
        ∀ c ∈ body, isBase64Alphabet c = true) ∧
    stdBase64Decode (encodeBase64 d).data = some d ∧
    (∀ (qrEncode : String → Option Bytes) (line : Line) (code : String),
      qrEncode code = some d →
        (qrStep qrEncode line ⟨"code", code⟩).QRCode =
          "data:image/png;base64," ++ encodeBase64 d) := by
  refine ⟨encodeBase64Loop_length d, encodeBase64Loop_alphabet d,
    encodeBase64Loop_decode d hbytes, ?_⟩
  intro qrEncode line code hcode
  simp [qrStep, hcode]

/-- Witness of C22: the two bytes of `Ma`. -/
theorem encodeBase64_standard_witness :
    encodeBase64 [77, 97] = "TWE=" ∧ stdBase64Decode "TWE=".data = some [77, 97] ∧
      stdBase64Decode (encodeBase64 [77, 97]).data = some [77, 97] :=
  ⟨by decide, by decide, (encodeBase64_standard [77, 97] (by decide)).2.2.1⟩

/-! ## Empty text on the two send paths -/

/-- C21 at a request with `media_type = "text"` and an empty message:
`sendMessage` answers 400 and sends nothing, but `sendMessageAuto` sends an
empty text message on the selected line and answers 200; `sendMessageAuto`
rejects an empty message only when the media type is empty as well. -/
theorem sendMessageAuto_sends_empty_text :
    (sendMessage sampleEnv 100 sampleRegistry emptyTextRequest).reply =
        .error 400 "Message es requerido para mensajes de texto" ∧
      (sendMessage sampleEnv 100 sampleRegistry emptyTextRequest).effects = [] ∧
      (sendMessageAuto sampleEnv 100 sampleRegistry emptyTextRequest).reply = .sent "line_1" ∧
      (sendMessageAuto sampleEnv 100 sampleRegistry emptyTextRequest).effects =
        [.send (some ⟨1, some "5491150000000@s.whatsapp.net"⟩)
            ⟨"5491155550000", "s.whatsapp.net"⟩ (.Conversation ""),
          .logMessage "line_1" "sent" "5491150000000@s.whatsapp.net" "5491155550000" "text" ""
            false] ∧
      lookupLine (sendMessageAuto sampleEnv 100 sampleRegistry emptyTextRequest).lines "line_1" =
        some (sampleLine "line_1" 1 100) ∧
      (∀ (env : Env) (now : Time) (lines : List Line) (req : MessageRequest),
        req.To ≠ "" → req.Message = "" → req.MediaType = "" →
          (sendMessageAuto env now lines req).reply =
              .error 400 "Message o MediaType son requeridos" ∧
            (sendMessageAuto env now lines req).effects = []) := by
  refine ⟨by decide, by rfl, by decide, by rfl, by decide, ?_⟩
  intro env now lines req hto hmsg hmedia
  have h1 : (req.To == "") = false := by simpa using hto
  have heq : sendMessageAuto env now lines req =
      ⟨lines, [], .error StatusBadRequest "Message o MediaType son requeridos"⟩ := by
    unfold sendMessageAuto
    simp only [h1, hmsg, hmedia, beq_self_eq_true, Bool.and_self, Bool.false_eq_true, if_false,
      if_true]
  rw [heq]
  exact ⟨rfl, rfl⟩

end WhatsGo
